import Mathlib

/-! Verification development for the egui_node_graph_lux example application.

This file gives a shallow embedding of src/egui_node_graph_example/src/app.rs:
the value and data types, the node templates, the port construction performed
by build_node, and the memoized recursive evaluator (evaluate_node,
evaluate_input, populate_output).  The graph container (node storage,
parameter storage, connection storage) is owned by the external
egui_node_graph widget library; it is modelled here as association lists with
the lookup semantics the evaluator relies on (get_input / get_output search a
node's port list by name, a connection maps an input id to an output id).

Modelling conventions:
* f32 scalars are modelled as exact integers; the properties under study
  concern which operations the evaluator applies and how values and errors
  flow, not floating-point rounding.  egui::Vec2 becomes a pair of integers.
* Rust Result-with-anyhow becomes the err constructor of EvalResult; a Rust
  panic (slotmap indexing with a stale id, or the expect in evaluate_input)
  becomes the panic constructor; the fuelOut constructor is the out-of-fuel
  sentinel of the fuel-indexed embedding of general recursion.
* HashMap<OutputId, MyValueType> becomes an association list where insertion
  conses at the front; lookup observes the same key-value mapping.
-/

set_option maxHeartbeats 1000000

namespace EguiNodeGraphLux

/-- The depthai node kinds (enum DepthaiNode in app.rs, lines 20-50). -/
inductive DepthaiNode where
  | ColorCamera
  | MonoCamera
  | ImageManip
  | VideoEncoder
  | NeuralNetwork
  | DetectionNetwork
  | MobileNetDetectionNetwork
  | MobileNetSpatialDetectionNetwork
  | YoloDetectionNetwork
  | YoloSpatialDetectionNetwork
  | SpatialDetectionNetwork
  | SPIIn
  | XLinkIn
  | SPIOut
  | XLinkOut
  | Script
  | StereoDepth
  | SpatialLocationCalculator
  | EdgeDetector
  | FeaureTracker
  | ObjectTracker
  | IMU
deriving DecidableEq

/-- Debug rendering of a DepthaiNode variant (Rust derive(Debug) prints the
variant name); used in the Invalid-cast error messages. -/
def DepthaiNode.debug_str : DepthaiNode → String
  | .ColorCamera => "ColorCamera"
  | .MonoCamera => "MonoCamera"
  | .ImageManip => "ImageManip"
  | .VideoEncoder => "VideoEncoder"
  | .NeuralNetwork => "NeuralNetwork"
  | .DetectionNetwork => "DetectionNetwork"
  | .MobileNetDetectionNetwork => "MobileNetDetectionNetwork"
  | .MobileNetSpatialDetectionNetwork => "MobileNetSpatialDetectionNetwork"
  | .YoloDetectionNetwork => "YoloDetectionNetwork"
  | .YoloSpatialDetectionNetwork => "YoloSpatialDetectionNetwork"
  | .SpatialDetectionNetwork => "SpatialDetectionNetwork"
  | .SPIIn => "SPIIn"
  | .XLinkIn => "XLinkIn"
  | .SPIOut => "SPIOut"
  | .XLinkOut => "XLinkOut"
  | .Script => "Script"
  | .StereoDepth => "StereoDepth"
  | .SpatialLocationCalculator => "SpatialLocationCalculator"
  | .EdgeDetector => "EdgeDetector"
  | .FeaureTracker => "FeaureTracker"
  | .ObjectTracker => "ObjectTracker"
  | .IMU => "IMU"

/-- The port data types (enum MyDataType in app.rs, lines 92-99). -/
inductive MyDataType where
  | Scalar
  | Vec2
  | Queue (node : DepthaiNode)
deriving DecidableEq

/-- The manual PartialEq implementation for MyDataType (app.rs lines 101-110):
two Queue types compare equal regardless of the depthai node kind carried. -/
def MyDataType.rust_eq : MyDataType → MyDataType → Bool
  | .Scalar, .Scalar => true
  | .Vec2, .Vec2 => true
  | .Queue _, .Queue _ => true
  | _, _ => false

/-- egui::Vec2 modelled as a pair of integers. -/
abbrev Vec2R := Int × Int

/-- Componentwise vector addition (egui Vec2 + Vec2). -/
def vec2_add (a b : Vec2R) : Vec2R := (a.1 + b.1, a.2 + b.2)

/-- Componentwise vector subtraction (egui Vec2 - Vec2). -/
def vec2_sub (a b : Vec2R) : Vec2R := (a.1 - b.1, a.2 - b.2)

/-- Componentwise scaling (egui Vec2 * f32). -/
def vec2_scale (v : Vec2R) (s : Int) : Vec2R := (v.1 * s, v.2 * s)

/-- egui::vec2 constructor. -/
def vec2_mk (x y : Int) : Vec2R := (x, y)

/-- Runtime values (enum MyValueType in app.rs, lines 121-126). -/
inductive MyValueType where
  | Vec2 (value : Vec2R)
  | Scalar (value : Int)
  | Queue (node : DepthaiNode)
deriving DecidableEq

/-- Debug rendering of a value, standing in for the Rust {:?} formatting used
inside the Invalid-cast messages (float formatting abstracted to integers). -/
def MyValueType.debug_str : MyValueType → String
  | .Vec2 v => "Vec2 \x7b value: [" ++ toString v.1 ++ " " ++ toString v.2 ++ "] \x7d"
  | .Scalar v => "Scalar \x7b value: " ++ toString v ++ " \x7d"
  | .Queue d => "Queue(" ++ d.debug_str ++ ")"

/-- MyValueType::try_to_vec2 (app.rs lines 138-144). -/
def MyValueType.try_to_vec2 : MyValueType → Except String Vec2R
  | .Vec2 value => .ok value
  | v => .error ("Invalid cast from " ++ v.debug_str ++ " to vec2")

/-- MyValueType::try_to_scalar (app.rs lines 147-153). -/
def MyValueType.try_to_scalar : MyValueType → Except String Int
  | .Scalar value => .ok value
  | v => .error ("Invalid cast from " ++ v.debug_str ++ " to scalar")

/-- MyValueType::try_to_node (app.rs lines 156-162). -/
def MyValueType.try_to_node : MyValueType → Except String DepthaiNode
  | .Queue node => .ok node
  | v => .error ("Invalid cast from " ++ v.debug_str ++ " to node")

/-- Node templates (enum MyNodeTemplate in app.rs, lines 170-207). -/
inductive MyNodeTemplate where
  | MakeScalar
  | AddScalar
  | SubtractScalar
  | MakeVector
  | AddVector
  | SubtractVector
  | VectorTimesScalar
  | CreateColorCamera
  | CreateMonoCamera
  | CreateImageManip
  | CreateVideoEncoder
  | CreateNeuralNetwork
  | CreateDetectionNetwork
  | CreateMobileNetDetectionNetwork
  | CreateMobileNetSpatialDetectionNetwork
  | CreateYoloDetectionNetwork
  | CreateYoloSpatialDetectionNetwork
  | CreateSpatialDetectionNetwork
  | CreateSPIIn
  | CreateXLinkIn
  | CreateSPIOut
  | CreateXLinkOut
  | CreateScript (input_names : List String) (output_names : List String)
  | CreateStereoDepth
  | CreateSpatialLocationCalculator
  | CreateEdgeDetector
  | CreateFeaureTracker
  | CreateObjectTracker
  | CreateIMU
deriving DecidableEq

/-- InputParamKind of the egui_node_graph library (all inputs built by this
application use ConnectionOrConstant). -/
inductive InputParamKind where
  | ConnectionOnly
  | ConstantOnly
  | ConnectionOrConstant
deriving DecidableEq

/-- Per-node user data (struct MyNodeData): stores the template. -/
structure MyNodeData where
  template : MyNodeTemplate
deriving DecidableEq

abbrev NodeId := Nat
abbrev InputId := Nat
abbrev OutputId := Nat

/-- A node of the graph container: user data plus the ordered, named port id
lists (egui_node_graph Node). -/
structure GraphNode where
  user_data : MyNodeData
  inputs : List (String × InputId)
  outputs : List (String × OutputId)
deriving DecidableEq

/-- An input parameter record (egui_node_graph InputParam): owning node, data
type, the inline constant value, and the parameter kind. -/
structure InputParamData where
  node : NodeId
  typ : MyDataType
  value : MyValueType
  kind : InputParamKind
deriving DecidableEq

/-- An output parameter record (egui_node_graph OutputParam): owning node and
data type. -/
structure OutputParamData where
  node : NodeId
  typ : MyDataType
deriving DecidableEq

/-- The graph container owned by the egui_node_graph library: nodes,
parameters and connections as association lists, plus a fresh-id counter for
newly created parameters. -/
structure MyGraph where
  nodes : List (NodeId × GraphNode)
  input_params : List (InputId × InputParamData)
  output_params : List (OutputId × OutputParamData)
  connections : List (InputId × OutputId)
  next_id : Nat
deriving DecidableEq

/-- Graph.connection: the output connected to an input, if any. -/
def MyGraph.connection (g : MyGraph) (i : InputId) : Option OutputId :=
  g.connections.lookup i

/-- Error message of the graph library's failed port lookup
(EguiGraphError::NoParameterNamed). -/
def no_param_msg (name : String) : String := "No parameter named " ++ name

/-- Result of an embedded evaluation step: Ok value, anyhow error, Rust
panic, or out of fuel. -/
inductive EvalResult (α : Type) where
  | ok (v : α)
  | err (e : String)
  | panic (msg : String)
  | fuelOut
deriving DecidableEq

/-- Node::get_input of the graph library: search the node's input port list
by name; indexing a missing node panics, a missing name is an error. -/
def get_input (g : MyGraph) (node_id : NodeId) (name : String) : EvalResult InputId :=
  match g.nodes.lookup node_id with
  | none => .panic "invalid NodeId"
  | some nd =>
    match nd.inputs.lookup name with
    | some iid => .ok iid
    | none => .err (no_param_msg name)

/-- Node::get_output of the graph library: search the node's output port
list by name. -/
def get_output (g : MyGraph) (node_id : NodeId) (name : String) : EvalResult OutputId :=
  match g.nodes.lookup node_id with
  | none => .panic "invalid NodeId"
  | some nd =>
    match nd.outputs.lookup name with
    | some oid => .ok oid
    | none => .err (no_param_msg name)

/-- The outputs cache: OutputId to last computed value (HashMap in app.rs,
line 1434). -/
abbrev OutputsCache := List (OutputId × MyValueType)

/-- Sequencing of a cacheless evaluation result, mirroring the Rust question
mark operator: ok continues, everything else propagates. -/
def withOkE {α β : Type} : EvalResult α → (α → EvalResult β) → EvalResult β
  | .ok v, f => f v
  | .err e, _ => .err e
  | .panic m, _ => .panic m
  | .fuelOut, _ => .fuelOut

/-- Sequencing of a cache-threading evaluation step, mirroring the Rust
question mark operator: ok continues with the updated cache, everything else
propagates together with the cache at the point of failure. -/
def withOk {α β : Type} :
    EvalResult α × OutputsCache → (α → OutputsCache → EvalResult β × OutputsCache) →
    EvalResult β × OutputsCache
  | (.ok v, c), f => f v c
  | (.err e, c), _ => (.err e, c)
  | (.panic m, c), _ => (.panic m, c)
  | (.fuelOut, c), _ => (.fuelOut, c)

/-- Lift an Except (the try_to coercions) into an evaluation result. -/
def liftE {α : Type} : Except String α → EvalResult α
  | .ok v => .ok v
  | .error e => .err e

/-- populate_output (app.rs lines 1557-1567): resolve the output id by name,
insert the value into the cache, and return the value. -/
def populate_output (g : MyGraph) (c : OutputsCache) (node_id : NodeId)
    (param_name : String) (value : MyValueType) : EvalResult MyValueType × OutputsCache :=
  match get_output g node_id param_name with
  | .ok oid => (.ok value, (oid, value) :: c)
  | .err e => (.err e, c)
  | .panic m => (.panic m, c)
  | .fuelOut => (.fuelOut, c)

/-- Evaluator::input_scalar etc: evaluate an input then coerce, mirroring
evaluate_input(...)?.try_to_xxx(). -/
def coerce {α : Type} (f : MyValueType → Except String α) :
    EvalResult MyValueType × OutputsCache → EvalResult α × OutputsCache
  | (r, c) => (withOkE r (fun v => liftE (f v)), c)

/-- A one-input match arm of evaluate_node: evaluate and coerce the named
input, apply the arm's computation, populate the named output. -/
def arm1 {α : Type} (g : MyGraph) (node_id : NodeId)
    (ev : String → OutputsCache → EvalResult MyValueType × OutputsCache)
    (f1 : MyValueType → Except String α) (n1 : String)
    (out_name : String) (F : α → MyValueType) (c : OutputsCache) :
    EvalResult MyValueType × OutputsCache :=
  withOk (coerce f1 (ev n1 c)) fun a c =>
    populate_output g c node_id out_name (F a)

/-- A two-input match arm of evaluate_node: evaluate and coerce the two named
inputs in order, apply the arm's computation, populate the named output. -/
def arm2 {α β : Type} (g : MyGraph) (node_id : NodeId)
    (ev : String → OutputsCache → EvalResult MyValueType × OutputsCache)
    (f1 : MyValueType → Except String α) (n1 : String)
    (f2 : MyValueType → Except String β) (n2 : String)
    (out_name : String) (F : α → β → MyValueType) (c : OutputsCache) :
    EvalResult MyValueType × OutputsCache :=
  withOk (coerce f1 (ev n1 c)) fun a c =>
    withOk (coerce f2 (ev n2 c)) fun b c =>
      populate_output g c node_id out_name (F a b)

/-- The match on node.user_data.template inside evaluate_node
(app.rs lines 1507-1554), with ev standing for the Evaluator's
evaluate_input at the current fuel. -/
def node_arm (g : MyGraph) (node_id : NodeId) (t : MyNodeTemplate)
    (ev : String → OutputsCache → EvalResult MyValueType × OutputsCache)
    (c : OutputsCache) : EvalResult MyValueType × OutputsCache :=
  match t with
  | .AddScalar =>
    arm2 g node_id ev MyValueType.try_to_scalar "A" MyValueType.try_to_scalar "B"
      "out" (fun a b => .Scalar (a + b)) c
  | .SubtractScalar =>
    arm2 g node_id ev MyValueType.try_to_scalar "A" MyValueType.try_to_scalar "B"
      "out" (fun a b => .Scalar (a - b)) c
  | .VectorTimesScalar =>
    arm2 g node_id ev MyValueType.try_to_scalar "scalar" MyValueType.try_to_vec2 "vector"
      "out" (fun s v => .Vec2 (vec2_scale v s)) c
  | .AddVector =>
    arm2 g node_id ev MyValueType.try_to_vec2 "v1" MyValueType.try_to_vec2 "v2"
      "out" (fun a b => .Vec2 (vec2_add a b)) c
  | .SubtractVector =>
    arm2 g node_id ev MyValueType.try_to_vec2 "v1" MyValueType.try_to_vec2 "v2"
      "out" (fun a b => .Vec2 (vec2_sub a b)) c
  | .MakeVector =>
    arm2 g node_id ev MyValueType.try_to_scalar "x" MyValueType.try_to_scalar "y"
      "out" (fun x y => .Vec2 (vec2_mk x y)) c
  | .MakeScalar =>
    arm1 g node_id ev MyValueType.try_to_scalar "value" "out" (fun v => .Scalar v) c
  | .CreateColorCamera =>
    arm1 g node_id ev MyValueType.try_to_node "inputConfig" "video" (fun q => .Queue q) c
  | .CreateXLinkOut =>
    arm1 g node_id ev MyValueType.try_to_node "in" "output" (fun q => .Queue q) c
  | _ =>
    arm1 g node_id ev MyValueType.try_to_scalar "value" "out" (fun v => .Scalar v) c

/-- The body of evaluate_input (app.rs lines 1570-1601), with evn standing
for the recursive evaluate_node at the current fuel: resolve the input id by
name; with a connection, return the cached value for the connected output or
recursively evaluate the upstream node and then read the cache (the expect
panics when the upstream arm did not populate that output); without a
connection, return the input's inline constant value. -/
def input_step (g : MyGraph) (node_id : NodeId) (param_name : String)
    (evn : NodeId → OutputsCache → EvalResult MyValueType × OutputsCache)
    (c : OutputsCache) : EvalResult MyValueType × OutputsCache :=
  match get_input g node_id param_name with
  | .ok input_id =>
    match g.connection input_id with
    | some other_output_id =>
      match c.lookup other_output_id with
      | some other_value => (.ok other_value, c)
      | none =>
        match g.output_params.lookup other_output_id with
        | none => (.panic "invalid OutputId", c)
        | some p =>
          withOk (evn p.node c) fun _ c =>
            match c.lookup other_output_id with
            | some v => (.ok v, c)
            | none => (.panic "Cache should be populated", c)
    | none =>
      match g.input_params.lookup input_id with
      | none => (.panic "invalid InputId", c)
      | some ip => (.ok ip.value, c)
  | .err e => (.err e, c)
  | .panic m => (.panic m, c)
  | .fuelOut => (.fuelOut, c)

mutual

/-- evaluate_node (app.rs lines 1437-1555): look the node up (slotmap
indexing; panics on a stale id) and run its template's match arm; fuel bounds
the recursion depth of the embedding. -/
def evaluate_node : Nat → MyGraph → NodeId → OutputsCache →
    EvalResult MyValueType × OutputsCache
  | 0, _, _, c => (.fuelOut, c)
  | fuel + 1, g, node_id, c =>
    match g.nodes.lookup node_id with
    | none => (.panic "invalid NodeId", c)
    | some nd => node_arm g node_id nd.user_data.template (evaluate_input fuel g node_id) c

/-- evaluate_input (app.rs lines 1570-1601): one input_step with the
recursive evaluate_node plugged in at decreased fuel. -/
def evaluate_input : Nat → MyGraph → NodeId → String → OutputsCache →
    EvalResult MyValueType × OutputsCache
  | 0, _, _, _, c => (.fuelOut, c)
  | fuel + 1, g, node_id, param_name, c =>
    input_step g node_id param_name (evaluate_node fuel g) c

end

/-! The naive reference evaluator.

The specification describes evaluate_node as a memoized evaluator whose
per-output cache only avoids recomputation; the reference semantics it is
claimed to agree with is a naive, cacheless evaluator that re-evaluates every
upstream output on demand.  The naive_ definitions below follow the spec's
words: the same per-template arms, but an input with a connection always
re-evaluates the upstream node, and the value of an upstream output is the
value that node's arm assigned to that output during its own evaluation
(there is no cache, so an output the arm never assigned is the same
Cache-should-be-populated panic). -/

/-- Final step of a naive arm: resolve the output id by name and return the
assignment of that output together with the arm's value. -/
def naive_populate (g : MyGraph) (node_id : NodeId) (param_name : String)
    (value : MyValueType) : EvalResult (OutputId × MyValueType) :=
  match get_output g node_id param_name with
  | .ok oid => .ok (oid, value)
  | .err e => .err e
  | .panic m => .panic m
  | .fuelOut => .fuelOut

/-- A one-input arm of the naive evaluator. -/
def arm1N {α : Type} (g : MyGraph) (node_id : NodeId)
    (ev : String → EvalResult MyValueType)
    (f1 : MyValueType → Except String α) (n1 : String)
    (out_name : String) (F : α → MyValueType) :
    EvalResult (OutputId × MyValueType) :=
  withOkE (withOkE (ev n1) fun v => liftE (f1 v)) fun a =>
    naive_populate g node_id out_name (F a)

/-- A two-input arm of the naive evaluator. -/
def arm2N {α β : Type} (g : MyGraph) (node_id : NodeId)
    (ev : String → EvalResult MyValueType)
    (f1 : MyValueType → Except String α) (n1 : String)
    (f2 : MyValueType → Except String β) (n2 : String)
    (out_name : String) (F : α → β → MyValueType) :
    EvalResult (OutputId × MyValueType) :=
  withOkE (withOkE (ev n1) fun v => liftE (f1 v)) fun a =>
    withOkE (withOkE (ev n2) fun v => liftE (f2 v)) fun b =>
      naive_populate g node_id out_name (F a b)

/-- The template match of the naive evaluator: the same arms as node_arm. -/
def naive_node_arm (g : MyGraph) (node_id : NodeId) (t : MyNodeTemplate)
    (ev : String → EvalResult MyValueType) : EvalResult (OutputId × MyValueType) :=
  match t with
  | .AddScalar =>
    arm2N g node_id ev MyValueType.try_to_scalar "A" MyValueType.try_to_scalar "B"
      "out" (fun a b => .Scalar (a + b))
  | .SubtractScalar =>
    arm2N g node_id ev MyValueType.try_to_scalar "A" MyValueType.try_to_scalar "B"
      "out" (fun a b => .Scalar (a - b))
  | .VectorTimesScalar =>
    arm2N g node_id ev MyValueType.try_to_scalar "scalar" MyValueType.try_to_vec2 "vector"
      "out" (fun s v => .Vec2 (vec2_scale v s))
  | .AddVector =>
    arm2N g node_id ev MyValueType.try_to_vec2 "v1" MyValueType.try_to_vec2 "v2"
      "out" (fun a b => .Vec2 (vec2_add a b))
  | .SubtractVector =>
    arm2N g node_id ev MyValueType.try_to_vec2 "v1" MyValueType.try_to_vec2 "v2"
      "out" (fun a b => .Vec2 (vec2_sub a b))
  | .MakeVector =>
    arm2N g node_id ev MyValueType.try_to_scalar "x" MyValueType.try_to_scalar "y"
      "out" (fun x y => .Vec2 (vec2_mk x y))
  | .MakeScalar =>
    arm1N g node_id ev MyValueType.try_to_scalar "value" "out" (fun v => .Scalar v)
  | .CreateColorCamera =>
    arm1N g node_id ev MyValueType.try_to_node "inputConfig" "video" (fun q => .Queue q)
  | .CreateXLinkOut =>
    arm1N g node_id ev MyValueType.try_to_node "in" "output" (fun q => .Queue q)
  | _ =>
    arm1N g node_id ev MyValueType.try_to_scalar "value" "out" (fun v => .Scalar v)

/-- The body of a naive input resolution, with evo standing for the naive
output evaluation: with a connection, re-evaluate the upstream output on
demand; without one, the inline constant. -/
def naive_input_step (g : MyGraph) (node_id : NodeId) (param_name : String)
    (evo : OutputId → EvalResult MyValueType) : EvalResult MyValueType :=
  match get_input g node_id param_name with
  | .ok input_id =>
    match g.connection input_id with
    | some other_output_id => evo other_output_id
    | none =>
      match g.input_params.lookup input_id with
      | none => .panic "invalid InputId"
      | some ip => .ok ip.value
  | .err e => .err e
  | .panic m => .panic m
  | .fuelOut => .fuelOut

/-- The body of a naive output evaluation, with evc standing for the naive
node evaluation: evaluate the owning node and take the assignment its arm
made to this output; if the arm assigned a different output, this is the same
missing-cache-entry panic the memoized evaluator raises. -/
def naive_output_step (g : MyGraph) (oid : OutputId)
    (evc : NodeId → EvalResult (OutputId × MyValueType)) : EvalResult MyValueType :=
  match g.output_params.lookup oid with
  | none => .panic "invalid OutputId"
  | some p =>
    match evc p.node with
    | .ok (o, v) => if o = oid then .ok v else .panic "Cache should be populated"
    | .err e => .err e
    | .panic m => .panic m
    | .fuelOut => .fuelOut

mutual

/-- Naive evaluation of a node: run its arm; the result carries the single
output the arm assigned together with the returned value. -/
def naive_node_core : Nat → MyGraph → NodeId → EvalResult (OutputId × MyValueType)
  | 0, _, _ => .fuelOut
  | fuel + 1, g, node_id =>
    match g.nodes.lookup node_id with
    | none => .panic "invalid NodeId"
    | some nd => naive_node_arm g node_id nd.user_data.template (naive_input fuel g node_id)

/-- Naive resolution of an input: one naive_input_step. -/
def naive_input : Nat → MyGraph → NodeId → String → EvalResult MyValueType
  | 0, _, _, _ => .fuelOut
  | fuel + 1, g, node_id, param_name =>
    naive_input_step g node_id param_name (naive_output fuel g)

/-- Naive value of an output: one naive_output_step. -/
def naive_output : Nat → MyGraph → OutputId → EvalResult MyValueType
  | 0, _, _ => .fuelOut
  | fuel + 1, g, oid =>
    naive_output_step g oid (naive_node_core fuel g)

end

/-- Forget which output a naive node evaluation assigned, keeping the
returned value: the observable result of the naive evaluator. -/
def strip : EvalResult (OutputId × MyValueType) → EvalResult MyValueType
  | .ok (_, v) => .ok v
  | .err e => .err e
  | .panic m => .panic m
  | .fuelOut => .fuelOut

/-- Naive evaluation of a node, observable result. -/
def naive_node (fuel : Nat) (g : MyGraph) (node_id : NodeId) : EvalResult MyValueType :=
  strip (naive_node_core fuel g node_id)

/-! Port construction: build_node (app.rs lines 409-851).

Each template arm of build_node is a straight-line sequence of
add_input_param / add_output_param calls (the CreateScript arm maps its two
name lists); build_node_ops lists that sequence per template and build_node
replays it against the graph.  The closures of the source
(build_depthai_input, input_scalar, ...) become the op builders below. -/

/-- One parameter-creating call of build_node. -/
inductive AddOp where
  | addIn (name : String) (typ : MyDataType) (value : MyValueType) (kind : InputParamKind)
  | addOut (name : String) (typ : MyDataType)
deriving DecidableEq

/-- Closure build_depthai_input: a queue-typed input whose constant is the
queue value of the same depthai node. -/
def build_depthai_input (name : String) (d : DepthaiNode) : AddOp :=
  .addIn name (.Queue d) (.Queue d) .ConnectionOrConstant

/-- Closure build_depthai_output. -/
def build_depthai_output (name : String) (d : DepthaiNode) : AddOp :=
  .addOut name (.Queue d)

/-- Closure input_scalar: scalar input with constant 0. -/
def input_scalar_op (name : String) : AddOp :=
  .addIn name .Scalar (.Scalar 0) .ConnectionOrConstant

/-- Closure input_vector: vector input with constant (0,0). -/
def input_vector_op (name : String) : AddOp :=
  .addIn name .Vec2 (.Vec2 (0, 0)) .ConnectionOrConstant

/-- Closure output_scalar. -/
def output_scalar_op (name : String) : AddOp := .addOut name .Scalar

/-- Closure output_vector. -/
def output_vector_op (name : String) : AddOp := .addOut name .Vec2

/-- Closure build_detection_network_node (app.rs lines 437-449). -/
def detection_network_ops (d : DepthaiNode) : List AddOp :=
  [build_depthai_input "in" d,
   build_depthai_output "out" d,
   build_depthai_output "passthrough" d,
   build_depthai_output "outNetwork" d]

/-- Closure build_spatial_detection_network_node (app.rs lines 451-467). -/
def spatial_detection_network_ops (d : DepthaiNode) : List AddOp :=
  [build_depthai_input "in" d,
   build_depthai_input "inputDepth" d,
   build_depthai_output "out" d,
   build_depthai_output "boundingBoxMapping" d,
   build_depthai_output "passthroughDepth" d,
   build_depthai_output "spatialLocationCalculatorOutput" d,
   build_depthai_output "passthrough" d]

/-- The parameter-creating calls each template arm of build_node performs,
in source order. -/
def build_node_ops : MyNodeTemplate → List AddOp
  | .AddScalar =>
    [.addIn "A" .Scalar (.Scalar 0) .ConnectionOrConstant,
     input_scalar_op "B", output_scalar_op "out"]
  | .SubtractScalar =>
    [input_scalar_op "A", input_scalar_op "B", output_scalar_op "out"]
  | .VectorTimesScalar =>
    [input_scalar_op "scalar", input_vector_op "vector", output_vector_op "out"]
  | .AddVector =>
    [input_vector_op "v1", input_vector_op "v2", output_vector_op "out"]
  | .SubtractVector =>
    [input_vector_op "v1", input_vector_op "v2", output_vector_op "out"]
  | .MakeVector =>
    [input_scalar_op "x", input_scalar_op "y", output_vector_op "out"]
  | .MakeScalar =>
    [input_scalar_op "value", output_scalar_op "out"]
  | .CreateColorCamera =>
    [build_depthai_input "inputConfig" .ColorCamera,
     build_depthai_input "inputControl" .ColorCamera,
     build_depthai_output "raw" .ColorCamera,
     build_depthai_output "isp" .ColorCamera,
     build_depthai_output "video" .ColorCamera,
     build_depthai_output "still" .ColorCamera,
     build_depthai_output "preview" .ColorCamera]
  | .CreateMonoCamera =>
    [build_depthai_input "inputConfig" .MonoCamera,
     build_depthai_input "inputControl" .MonoCamera,
     build_depthai_output "out" .MonoCamera]
  | .CreateImageManip =>
    [build_depthai_input "inputImage" .ImageManip,
     build_depthai_input "inputConfig" .ImageManip,
     build_depthai_output "out" .ImageManip]
  | .CreateVideoEncoder =>
    [build_depthai_input "in" .VideoEncoder,
     build_depthai_output "bitstream" .VideoEncoder]
  | .CreateNeuralNetwork =>
    [build_depthai_input "in" .NeuralNetwork,
     build_depthai_output "out" .NeuralNetwork,
     build_depthai_output "passthrough" .NeuralNetwork]
  | .CreateDetectionNetwork => detection_network_ops .DetectionNetwork
  | .CreateMobileNetDetectionNetwork => detection_network_ops .MobileNetDetectionNetwork
  | .CreateMobileNetSpatialDetectionNetwork =>
    spatial_detection_network_ops .MobileNetSpatialDetectionNetwork
  | .CreateYoloDetectionNetwork => detection_network_ops .YoloDetectionNetwork
  | .CreateYoloSpatialDetectionNetwork =>
    spatial_detection_network_ops .YoloSpatialDetectionNetwork
  | .CreateSpatialDetectionNetwork =>
    spatial_detection_network_ops .SpatialDetectionNetwork
  | .CreateSPIIn =>
    [build_depthai_input "SPI (from MCU)" .SPIIn,
     build_depthai_output "out" .SPIIn]
  | .CreateXLinkIn =>
    [build_depthai_input "XLink (from host)" .XLinkIn,
     build_depthai_output "out" .XLinkIn]
  | .CreateSPIOut =>
    [build_depthai_input "in" .SPIOut,
     build_depthai_output "SPI (to MCU)" .SPIOut]
  | .CreateXLinkOut =>
    [build_depthai_input "in" .XLinkOut,
     build_depthai_output "XLink (to host)" .XLinkOut]
  | .CreateScript input_names output_names =>
    input_names.map (fun i => build_depthai_input i .Script) ++
      output_names.map (fun o => build_depthai_output o .Script)
  | .CreateStereoDepth =>
    [build_depthai_input "inputConfig" .StereoDepth,
     build_depthai_input "left" .StereoDepth,
     build_depthai_input "right" .StereoDepth,
     build_depthai_output "depth" .StereoDepth,
     build_depthai_output "disparity" .StereoDepth,
     build_depthai_output "rectifiedLeft" .StereoDepth,
     build_depthai_output "rectifiedRight" .StereoDepth,
     build_depthai_output "syncedLeft" .StereoDepth,
     build_depthai_output "syncedRight" .StereoDepth,
     build_depthai_output "confidenceMap" .StereoDepth]
  | .CreateSpatialLocationCalculator =>
    [build_depthai_input "inputConfig" .SpatialLocationCalculator,
     build_depthai_input "inputDepth" .SpatialLocationCalculator,
     build_depthai_output "out" .SpatialLocationCalculator,
     build_depthai_output "passthroughDepth" .SpatialLocationCalculator]
  | .CreateEdgeDetector =>
    [build_depthai_input "inputConfig" .EdgeDetector,
     build_depthai_input "inputImage" .EdgeDetector,
     build_depthai_output "outputImage" .EdgeDetector]
  | .CreateFeaureTracker =>
    [build_depthai_input "inputConfig" .FeaureTracker,
     build_depthai_input "inputImage" .FeaureTracker,
     build_depthai_output "outputFeatures" .FeaureTracker,
     build_depthai_output "passthroughInputImage" .FeaureTracker]
  | .CreateObjectTracker =>
    [build_depthai_input "inputDetectionFrame" .ObjectTracker,
     build_depthai_input "inputDetections" .ObjectTracker,
     build_depthai_input "inputTrackerFrame" .ObjectTracker,
     build_depthai_output "out" .ObjectTracker,
     build_depthai_output "passthroughDetectionFrame" .ObjectTracker,
     build_depthai_output "passthroughDetections" .ObjectTracker,
     build_depthai_output "passthroughTrackerFrame" .ObjectTracker]
  | .CreateIMU =>
    [build_depthai_output "out" .IMU]

/-- Graph.add_input_param of the library: allocate a fresh parameter id,
record the parameter, and append the named port to the node's input list. -/
def add_input_param (g : MyGraph) (node_id : NodeId) (name : String)
    (typ : MyDataType) (value : MyValueType) (kind : InputParamKind) : MyGraph :=
  match g.nodes.lookup node_id with
  | none => g
  | some _ =>
    { g with
      nodes := g.nodes.map fun p =>
        if p.1 = node_id then (p.1, { p.2 with inputs := p.2.inputs ++ [(name, g.next_id)] })
        else p,
      input_params := g.input_params ++ [(g.next_id, ⟨node_id, typ, value, kind⟩)],
      next_id := g.next_id + 1 }

/-- Graph.add_output_param of the library. -/
def add_output_param (g : MyGraph) (node_id : NodeId) (name : String)
    (typ : MyDataType) : MyGraph :=
  match g.nodes.lookup node_id with
  | none => g
  | some _ =>
    { g with
      nodes := g.nodes.map fun p =>
        if p.1 = node_id then (p.1, { p.2 with outputs := p.2.outputs ++ [(name, g.next_id)] })
        else p,
      output_params := g.output_params ++ [(g.next_id, ⟨node_id, typ⟩)],
      next_id := g.next_id + 1 }

/-- Replay one build_node call against the graph. -/
def apply_add (node_id : NodeId) (g : MyGraph) : AddOp → MyGraph
  | .addIn name typ value kind => add_input_param g node_id name typ value kind
  | .addOut name typ => add_output_param g node_id name typ

/-- build_node (app.rs lines 409-851): perform the template's
parameter-creating calls in order. -/
def build_node (t : MyNodeTemplate) (g : MyGraph) (node_id : NodeId) : MyGraph :=
  (build_node_ops t).foldl (apply_add node_id) g

/-! Auxiliary predicates and observers used by the theorems. -/

/-- Named, typed input ports of a node as the user sees them (type resolved
through the parameter store; none marks a dangling id). -/
def input_types (g : MyGraph) (nd : GraphNode) : List (String × Option MyDataType) :=
  nd.inputs.map fun p => (p.1, (g.input_params.lookup p.2).map InputParamData.typ)

/-- Named, typed output ports of a node. -/
def output_types (g : MyGraph) (nd : GraphNode) : List (String × Option MyDataType) :=
  nd.outputs.map fun p => (p.1, (g.output_params.lookup p.2).map OutputParamData.typ)

/-- The typed port lists a node exposes. -/
def port_types (g : MyGraph) (node_id : NodeId) :
    Option (List (String × Option MyDataType) × List (String × Option MyDataType)) :=
  (g.nodes.lookup node_id).map fun nd => (input_types g nd, output_types g nd)

/-- Input port names and data types an AddOp sequence creates. -/
def ops_input_sig (s : List AddOp) : List (String × Option MyDataType) :=
  s.filterMap fun op =>
    match op with
    | .addIn name typ _ _ => some (name, some typ)
    | .addOut _ _ => none

/-- Output port names and data types an AddOp sequence creates. -/
def ops_output_sig (s : List AddOp) : List (String × Option MyDataType) :=
  s.filterMap fun op =>
    match op with
    | .addIn _ _ _ _ => none
    | .addOut name typ => some (name, some typ)

/-- The input port signature a template determines. -/
def input_sig (t : MyNodeTemplate) : List (String × Option MyDataType) :=
  ops_input_sig (build_node_ops t)

/-- The output port signature a template determines. -/
def output_sig (t : MyNodeTemplate) : List (String × Option MyDataType) :=
  ops_output_sig (build_node_ops t)

/-- Well-formedness of the graph container maintained by the library: every
output id listed on a node's port list is a registered output parameter owned
by that node. -/
def wf (g : MyGraph) : Bool :=
  g.nodes.all fun p =>
    p.2.outputs.all fun e =>
      match g.output_params.lookup e.2 with
      | some q => q.node = p.1
      | none => false

/-- Freshness of the id counter: every registered parameter id and every id
listed on a node's port lists is below next_id (maintained by the library's
allocation discipline). -/
def fresh_chk (g : MyGraph) : Bool :=
  (g.input_params.all fun p => decide (p.1 < g.next_id)) &&
  (g.output_params.all fun p => decide (p.1 < g.next_id)) &&
  (g.nodes.all fun p =>
    (p.2.inputs.all fun e => decide (e.2 < g.next_id)) &&
    (p.2.outputs.all fun e => decide (e.2 < g.next_id)))

/-- The output name the evaluate_node arm for a template populates. -/
def arm_out_name : MyNodeTemplate → String
  | .CreateColorCamera => "video"
  | .CreateXLinkOut => "output"
  | _ => "out"

/-- Whether a template has an explicit arm in evaluate_node; the rest fall
into the catch-all arm that requests the scalar input named value. -/
def handled : MyNodeTemplate → Bool
  | .AddScalar | .SubtractScalar | .VectorTimesScalar | .AddVector
  | .SubtractVector | .MakeVector | .MakeScalar
  | .CreateColorCamera | .CreateXLinkOut => true
  | _ => false

/-- A height function certifying that the input-to-output dependency edges of
the graph are acyclic: every connection must lead from a node to an upstream
node of strictly smaller height. -/
def decreasing_chk (g : MyGraph) (h : NodeId → Nat) : Bool :=
  g.nodes.all fun p =>
    p.2.inputs.all fun e =>
      match g.connections.lookup e.2 with
      | none => true
      | some o =>
        match g.output_params.lookup o with
        | none => true
        | some q => decide (h q.node < h p.1)

/-- An output has naive value v. -/
def NaiveOut (g : MyGraph) (o : OutputId) (v : MyValueType) : Prop :=
  ∃ fuel, naive_output fuel g o = .ok v

/-- Every cache entry records the naive value of its output. -/
def Consistent (g : MyGraph) (c : OutputsCache) : Prop :=
  ∀ o v, c.lookup o = some v → NaiveOut g o v

/-- The memoized evaluator, started on an empty cache, terminates on this
node with this result. -/
def MemoEval (g : MyGraph) (n : NodeId) (r : EvalResult MyValueType) : Prop :=
  ∃ fuel c, evaluate_node fuel g n [] = (r, c) ∧ r ≠ .fuelOut

/-- The naive reference evaluator terminates on this node with this result. -/
def NaiveEval (g : MyGraph) (n : NodeId) (r : EvalResult MyValueType) : Prop :=
  ∃ fuel, naive_node fuel g n = r ∧ r ≠ .fuelOut

/-- The memoized evaluator terminates on this node (with any outcome). -/
def Terminates (g : MyGraph) (n : NodeId) : Prop :=
  ∃ fuel, (evaluate_node fuel g n []).1 ≠ .fuelOut

/-! Concrete graphs used by witnesses and counterexamples. -/

/-- A two-node graph: node 0 is MakeScalar (constant 2), node 1 is AddScalar
whose input A is connected to node 0's out and whose input B holds the
constant 5. -/
def gW : MyGraph :=
  { nodes :=
      [(0, ⟨⟨.MakeScalar⟩, [("value", 0)], [("out", 1)]⟩),
       (1, ⟨⟨.AddScalar⟩, [("A", 2), ("B", 3)], [("out", 4)]⟩)],
    input_params :=
      [(0, ⟨0, .Scalar, .Scalar 2, .ConnectionOrConstant⟩),
       (2, ⟨1, .Scalar, .Scalar 0, .ConnectionOrConstant⟩),
       (3, ⟨1, .Scalar, .Scalar 5, .ConnectionOrConstant⟩)],
    output_params := [(1, ⟨0, .Scalar⟩), (4, ⟨1, .Scalar⟩)],
    connections := [(2, 1)],
    next_id := 5 }

/-- A graph that is cyclic by mistake: one MakeScalar node whose value input
is connected to its own out output. -/
def g_cyc : MyGraph :=
  { nodes := [(0, ⟨⟨.MakeScalar⟩, [("value", 0)], [("out", 1)]⟩)],
    input_params := [(0, ⟨0, .Scalar, .Scalar 0, .ConnectionOrConstant⟩)],
    output_params := [(1, ⟨0, .Scalar⟩)],
    connections := [(0, 1)],
    next_id := 2 }

/-- A one-node graph whose single node was built by build_node from the given
template, with no connections. -/
def mk_single (t : MyNodeTemplate) : MyGraph :=
  build_node t
    { nodes := [(0, ⟨⟨t⟩, [], []⟩)], input_params := [], output_params := [],
      connections := [], next_id := 0 } 0

/-- A freshly built CreateColorCamera node. -/
def g_cam : MyGraph := mk_single .CreateColorCamera

/-- A freshly built CreateXLinkOut node. -/
def g_xlink : MyGraph := mk_single .CreateXLinkOut

/-- A freshly built CreateMonoCamera node. -/
def g_mono : MyGraph := mk_single .CreateMonoCamera

/-- An AddScalar node whose input A holds a vector constant, provoking the
Invalid-cast error. -/
def g_bad : MyGraph :=
  { nodes := [(0, ⟨⟨.AddScalar⟩, [("A", 0), ("B", 1)], [("out", 2)]⟩)],
    input_params :=
      [(0, ⟨0, .Scalar, .Vec2 (1, 2), .ConnectionOrConstant⟩),
       (1, ⟨0, .Scalar, .Scalar 0, .ConnectionOrConstant⟩)],
    output_params := [(2, ⟨0, .Scalar⟩)],
    connections := [],
    next_id := 3 }

example : evaluate_node 4 gW 1 [] = (.ok (.Scalar 7), [(4, .Scalar 7), (1, .Scalar 2)]) := by
  decide

example : naive_node 6 gW 1 = .ok (.Scalar 7) := by decide

example :
    evaluate_node 3 g_cam 0 [] = (.ok (.Queue .ColorCamera), [(4, .Queue .ColorCamera)]) := by
  decide

example : evaluate_node 3 g_xlink 0 [] = (.err (no_param_msg "output"), []) := by decide

example : evaluate_node 3 g_mono 0 [] = (.err (no_param_msg "value"), []) := by decide

example :
    evaluate_node 2 g_bad 0 [] =
      (.err "Invalid cast from Vec2 { value: [1 2] } to scalar", []) := by decide

example : (evaluate_node 50 g_cyc 0 []).1 = .fuelOut := by decide

example : wf gW = true ∧ wf g_cam = true ∧ fresh_chk g_cam = true := by decide

/-! One-step unfolding lemmas for the fuel-indexed evaluators. -/

lemma evaluate_node_zero (g : MyGraph) (n : NodeId) (c : OutputsCache) :
    evaluate_node 0 g n c = (.fuelOut, c) := by
  simp [evaluate_node]

lemma evaluate_node_succ (fuel : Nat) (g : MyGraph) (n : NodeId) (c : OutputsCache) :
    evaluate_node (fuel + 1) g n c =
      match g.nodes.lookup n with
      | none => (.panic "invalid NodeId", c)
      | some nd => node_arm g n nd.user_data.template (evaluate_input fuel g n) c := by
  simp [evaluate_node]

lemma evaluate_input_zero (g : MyGraph) (n : NodeId) (p : String) (c : OutputsCache) :
    evaluate_input 0 g n p c = (.fuelOut, c) := by
  simp [evaluate_input]

lemma evaluate_input_succ (fuel : Nat) (g : MyGraph) (n : NodeId) (p : String)
    (c : OutputsCache) :
    evaluate_input (fuel + 1) g n p c = input_step g n p (evaluate_node fuel g) c := by
  simp [evaluate_input]

lemma naive_node_core_zero (g : MyGraph) (n : NodeId) :
    naive_node_core 0 g n = .fuelOut := by
  simp [naive_node_core]

lemma naive_node_core_succ (fuel : Nat) (g : MyGraph) (n : NodeId) :
    naive_node_core (fuel + 1) g n =
      match g.nodes.lookup n with
      | none => .panic "invalid NodeId"
      | some nd => naive_node_arm g n nd.user_data.template (naive_input fuel g n) := by
  simp [naive_node_core]

lemma naive_input_zero (g : MyGraph) (n : NodeId) (p : String) :
    naive_input 0 g n p = .fuelOut := by
  simp [naive_input]

lemma naive_input_succ (fuel : Nat) (g : MyGraph) (n : NodeId) (p : String) :
    naive_input (fuel + 1) g n p = naive_input_step g n p (naive_output fuel g) := by
  simp [naive_input]

lemma naive_output_zero (g : MyGraph) (o : OutputId) :
    naive_output 0 g o = .fuelOut := by
  simp [naive_output]

lemma naive_output_succ (fuel : Nat) (g : MyGraph) (o : OutputId) :
    naive_output (fuel + 1) g o = naive_output_step g o (naive_node_core fuel g) := by
  simp [naive_output]

/-! Case lemmas for the sequencing combinators. -/

lemma withOk_cases {α β : Type} (r : EvalResult α × OutputsCache)
    (f : α → OutputsCache → EvalResult β × OutputsCache) :
    (∃ a c, r = (.ok a, c) ∧ withOk r f = f a c) ∨
    (∃ e c, r = (.err e, c) ∧ withOk r f = (.err e, c)) ∨
    (∃ m c, r = (.panic m, c) ∧ withOk r f = (.panic m, c)) ∨
    (∃ c, r = (.fuelOut, c) ∧ withOk r f = (.fuelOut, c)) := by
  obtain ⟨r1, c⟩ := r
  cases r1 with
  | ok a => exact Or.inl ⟨a, c, rfl, rfl⟩
  | err e => exact Or.inr (Or.inl ⟨e, c, rfl, rfl⟩)
  | panic m => exact Or.inr (Or.inr (Or.inl ⟨m, c, rfl, rfl⟩))
  | fuelOut => exact Or.inr (Or.inr (Or.inr ⟨c, rfl, rfl⟩))

lemma withOkE_cases {α β : Type} (r : EvalResult α) (f : α → EvalResult β) :
    (∃ a, r = .ok a ∧ withOkE r f = f a) ∨
    (∃ e, r = .err e ∧ withOkE r f = .err e) ∨
    (∃ m, r = .panic m ∧ withOkE r f = .panic m) ∨
    (r = .fuelOut ∧ withOkE r f = .fuelOut) := by
  cases r <;> simp [withOkE]

/-! Association list helper lemmas. -/

lemma lookup_cons {α β : Type} [BEq α] (k : α) (p : α × β) (t : List (α × β)) :
    (p :: t).lookup k = if k == p.1 then some p.2 else t.lookup k := by
  obtain ⟨a, b⟩ := p
  rw [List.lookup]
  cases h : k == a <;> simp [h]

lemma lookup_mem {α β : Type} [BEq α] [LawfulBEq α] {l : List (α × β)} {k : α} {v : β}
    (h : l.lookup k = some v) : (k, v) ∈ l := by
  induction l with
  | nil => simp [List.lookup] at h
  | cons p t ih =>
    rw [lookup_cons] at h
    by_cases hk : k == p.1
    · rw [if_pos hk] at h
      cases h
      have hk2 : k = p.1 := eq_of_beq hk
      subst hk2
      left
    · rw [if_neg hk] at h
      exact List.mem_cons_of_mem _ (ih h)

lemma lookup_cons_self {β : Type} (k : Nat) (v : β) (l : List (Nat × β)) :
    ((k, v) :: l).lookup k = some v := by
  rw [lookup_cons]
  simp

lemma lookup_cons_ne {β : Type} {k j : Nat} (v : β) (l : List (Nat × β)) (h : k ≠ j) :
    ((j, v) :: l).lookup k = l.lookup k := by
  rw [lookup_cons]
  simp [h]

lemma lookup_append_left {α β : Type} [BEq α] {l1 l2 : List (α × β)} {k : α} {v : β}
    (h : l1.lookup k = some v) : (l1 ++ l2).lookup k = some v := by
  induction l1 with
  | nil => simp [List.lookup] at h
  | cons p t ih =>
    rw [lookup_cons] at h
    rw [List.cons_append, lookup_cons]
    by_cases hk : k == p.1
    · rw [if_pos hk] at h ⊢; exact h
    · rw [if_neg hk] at h ⊢; exact ih h

lemma lookup_append_right {α β : Type} [BEq α] {l1 l2 : List (α × β)} {k : α}
    (h : l1.lookup k = none) : (l1 ++ l2).lookup k = l2.lookup k := by
  induction l1 with
  | nil => simp
  | cons p t ih =>
    rw [lookup_cons] at h
    rw [List.cons_append, lookup_cons]
    by_cases hk : k == p.1
    · rw [if_pos hk] at h; cases h
    · rw [if_neg hk] at h ⊢; exact ih h

lemma lookup_none_of_keys_lt {β : Type} {l : List (Nat × β)} {k : Nat}
    (h : ∀ p ∈ l, p.1 < k) : l.lookup k = none := by
  induction l with
  | nil => simp
  | cons p t ih =>
    rw [lookup_cons]
    have hp : p.1 < k := h p (by simp)
    have hne : ¬ (k == p.1) = true := by
      simp only [beq_iff_eq]
      omega
    rw [if_neg hne]
    exact ih fun q hq => h q (by simp [hq])

lemma lookup_append_small {β : Type} {l : List (Nat × β)} {k j : Nat} {x : β}
    (hk : k < j) : (l ++ [(j, x)]).lookup k = l.lookup k := by
  cases hl : l.lookup k with
  | some v => exact lookup_append_left hl
  | none =>
    rw [lookup_append_right hl, lookup_cons]
    have hne : ¬ (k == j) = true := by
      simp only [beq_iff_eq]
      omega
    rw [if_neg hne]
    rfl

lemma lookup_update {β : Type} (F : β → β) {l : List (Nat × β)} {n : Nat} {nd : β}
    (h : l.lookup n = some nd) :
    (l.map fun p => if p.1 = n then (p.1, F p.2) else p).lookup n = some (F nd) := by
  induction l with
  | nil => simp [List.lookup] at h
  | cons p t ih =>
    rw [lookup_cons] at h
    rw [List.map_cons]
    by_cases hk : n == p.1
    · rw [if_pos hk] at h
      cases h
      have hk2 : n = p.1 := eq_of_beq hk
      rw [if_pos hk2.symm, lookup_cons]
      simp [hk]
    · rw [if_neg hk] at h
      have hk2 : ¬ p.1 = n := by
        intro hcon
        apply hk
        simp [hcon]
      rw [if_neg hk2, lookup_cons, if_neg hk]
      exact ih h

lemma lookup_map_ne {β : Type} {l : List (Nat × β)} {n k : Nat} {F : β → β}
    (h : k ≠ n) :
    (l.map fun p => if p.1 = n then (p.1, F p.2) else p).lookup k = l.lookup k := by
  induction l with
  | nil => simp
  | cons p t ih =>
    rw [List.map_cons, lookup_cons]
    by_cases hk : p.1 = n
    · rw [if_pos hk]
      have hne : ¬ (k == p.1) = true := by
        simp only [beq_iff_eq]
        omega
      rw [lookup_cons, if_neg hne, if_neg hne]
      exact ih
    · rw [if_neg hk, lookup_cons]
      by_cases hkk : k == p.1
      · rw [if_pos hkk, if_pos hkk]
      · rw [if_neg hkk, if_neg hkk]
        exact ih

/-! Computation and inversion lemmas for the evaluator arms. -/

lemma arm1_compute {α : Type} {g : MyGraph} {nid : NodeId}
    {ev : String → OutputsCache → EvalResult MyValueType × OutputsCache}
    {f1 : MyValueType → Except String α} {n1 out_name : String}
    {F : α → MyValueType} {c c₁ : OutputsCache} {v1 : MyValueType} {a : α} {oid : OutputId}
    (h1 : ev n1 c = (.ok v1, c₁)) (hf1 : f1 v1 = .ok a)
    (ho : get_output g nid out_name = .ok oid) :
    arm1 g nid ev f1 n1 out_name F c = (.ok (F a), (oid, F a) :: c₁) := by
  simp [arm1, h1, coerce, withOkE, hf1, liftE, withOk, populate_output, ho]

lemma arm2_compute {α β : Type} {g : MyGraph} {nid : NodeId}
    {ev : String → OutputsCache → EvalResult MyValueType × OutputsCache}
    {f1 : MyValueType → Except String α} {f2 : MyValueType → Except String β}
    {n1 n2 out_name : String} {F : α → β → MyValueType}
    {c c₁ c₂ : OutputsCache} {v1 v2 : MyValueType} {a : α} {b : β} {oid : OutputId}
    (h1 : ev n1 c = (.ok v1, c₁)) (hf1 : f1 v1 = .ok a)
    (h2 : ev n2 c₁ = (.ok v2, c₂)) (hf2 : f2 v2 = .ok b)
    (ho : get_output g nid out_name = .ok oid) :
    arm2 g nid ev f1 n1 f2 n2 out_name F c = (.ok (F a b), (oid, F a b) :: c₂) := by
  simp [arm2, h1, h2, coerce, withOkE, hf1, hf2, liftE, withOk, populate_output, ho]

lemma arm1_coerce_err {α : Type} {g : MyGraph} {nid : NodeId}
    {ev : String → OutputsCache → EvalResult MyValueType × OutputsCache}
    {f1 : MyValueType → Except String α} {n1 out_name : String}
    {F : α → MyValueType} {c c₁ : OutputsCache} {v1 : MyValueType} {e : String}
    (h1 : ev n1 c = (.ok v1, c₁)) (hf1 : f1 v1 = .error e) :
    arm1 g nid ev f1 n1 out_name F c = (.err e, c₁) := by
  simp [arm1, h1, coerce, withOkE, hf1, liftE, withOk]

lemma arm1_input_err {α : Type} {g : MyGraph} {nid : NodeId}
    {ev : String → OutputsCache → EvalResult MyValueType × OutputsCache}
    {f1 : MyValueType → Except String α} {n1 out_name : String}
    {F : α → MyValueType} {c c₁ : OutputsCache} {e : String}
    (h1 : ev n1 c = (.err e, c₁)) :
    arm1 g nid ev f1 n1 out_name F c = (.err e, c₁) := by
  simp [arm1, h1, coerce, withOkE, withOk]

lemma arm1_populate_err {α : Type} {g : MyGraph} {nid : NodeId}
    {ev : String → OutputsCache → EvalResult MyValueType × OutputsCache}
    {f1 : MyValueType → Except String α} {n1 out_name : String}
    {F : α → MyValueType} {c c₁ : OutputsCache} {v1 : MyValueType} {a : α} {e : String}
    (h1 : ev n1 c = (.ok v1, c₁)) (hf1 : f1 v1 = .ok a)
    (ho : get_output g nid out_name = .err e) :
    arm1 g nid ev f1 n1 out_name F c = (.err e, c₁) := by
  simp [arm1, h1, coerce, withOkE, hf1, liftE, withOk, populate_output, ho]

lemma arm2_coerce1_err {α β : Type} {g : MyGraph} {nid : NodeId}
    {ev : String → OutputsCache → EvalResult MyValueType × OutputsCache}
    {f1 : MyValueType → Except String α} {f2 : MyValueType → Except String β}
    {n1 n2 out_name : String} {F : α → β → MyValueType}
    {c c₁ : OutputsCache} {v1 : MyValueType} {e : String}
    (h1 : ev n1 c = (.ok v1, c₁)) (hf1 : f1 v1 = .error e) :
    arm2 g nid ev f1 n1 f2 n2 out_name F c = (.err e, c₁) := by
  simp [arm2, h1, coerce, withOkE, hf1, liftE, withOk]

lemma arm1_ok_inv {α : Type} {g : MyGraph} {nid : NodeId}
    {ev : String → OutputsCache → EvalResult MyValueType × OutputsCache}
    {f1 : MyValueType → Except String α} {n1 out_name : String}
    {F : α → MyValueType} {c c' : OutputsCache} {v : MyValueType}
    (h : arm1 g nid ev f1 n1 out_name F c = (.ok v, c')) :
    ∃ oid c₀, get_output g nid out_name = .ok oid ∧ c' = (oid, v) :: c₀ := by
  rw [arm1] at h
  rcases withOk_cases (coerce f1 (ev n1 c)) (fun a c => populate_output g c nid out_name (F a))
    with ⟨a, c₀, _, heq⟩ | ⟨e, c₀, _, heq⟩ | ⟨m, c₀, _, heq⟩ | ⟨c₀, _, heq⟩ <;>
    rw [heq] at h
  · rw [populate_output] at h
    rcases ho : get_output g nid out_name with oid | e | m
    · rw [ho] at h
      obtain ⟨hv, hc⟩ := Prod.mk.injEq .. ▸ h
      cases hv
      exact ⟨oid, c₀, rfl, hc.symm ▸ rfl⟩
    · rw [ho] at h; cases h
    · rw [ho] at h; cases h
    · rw [ho] at h; cases h
  · cases h
  · cases h
  · cases h

lemma arm2_ok_inv {α β : Type} {g : MyGraph} {nid : NodeId}
    {ev : String → OutputsCache → EvalResult MyValueType × OutputsCache}
    {f1 : MyValueType → Except String α} {f2 : MyValueType → Except String β}
    {n1 n2 out_name : String} {F : α → β → MyValueType}
    {c c' : OutputsCache} {v : MyValueType}
    (h : arm2 g nid ev f1 n1 f2 n2 out_name F c = (.ok v, c')) :
    ∃ oid c₀, get_output g nid out_name = .ok oid ∧ c' = (oid, v) :: c₀ := by
  rw [arm2] at h
  rcases withOk_cases (coerce f1 (ev n1 c))
      (fun a c => withOk (coerce f2 (ev n2 c)) fun b c =>
        populate_output g c nid out_name (F a b))
    with ⟨a, c₀, _, heq⟩ | ⟨e, c₀, _, heq⟩ | ⟨m, c₀, _, heq⟩ | ⟨c₀, _, heq⟩ <;>
    rw [heq] at h
  · rcases withOk_cases (coerce f2 (ev n2 c₀))
        (fun b c => populate_output g c nid out_name (F a b))
      with ⟨b, c₁, _, heq2⟩ | ⟨e, c₁, _, heq2⟩ | ⟨m, c₁, _, heq2⟩ | ⟨c₁, _, heq2⟩ <;>
      rw [heq2] at h
    · rw [populate_output] at h
      rcases ho : get_output g nid out_name with oid | e | m
      · rw [ho] at h
        obtain ⟨hv, hc⟩ := Prod.mk.injEq .. ▸ h
        cases hv
        exact ⟨oid, c₁, rfl, hc.symm ▸ rfl⟩
      · rw [ho] at h; cases h
      · rw [ho] at h; cases h
      · rw [ho] at h; cases h
    · cases h
    · cases h
    · cases h
  · cases h
  · cases h
  · cases h

/-- From an ok outcome of any template arm: the arm populated its designated
output with the returned value at the head of the cache. -/
lemma node_arm_ok_inv {g : MyGraph} {nid : NodeId} {t : MyNodeTemplate}
    {ev : String → OutputsCache → EvalResult MyValueType × OutputsCache}
    {c c' : OutputsCache} {v : MyValueType}
    (h : node_arm g nid t ev c = (.ok v, c')) :
    ∃ oid c₀, get_output g nid (arm_out_name t) = .ok oid ∧ c' = (oid, v) :: c₀ := by
  cases t <;>
    first
      | exact arm1_ok_inv h
      | exact arm2_ok_inv h

/-! Error provenance: every anyhow error string the evaluator can return. -/

/-- The error strings the evaluation can produce: a failed port lookup or a
failed coercion. -/
def ErrShape (e : String) : Prop :=
  (∃ name, e = no_param_msg name) ∨
  (∃ v : MyValueType,
    e = "Invalid cast from " ++ v.debug_str ++ " to vec2" ∨
    e = "Invalid cast from " ++ v.debug_str ++ " to scalar" ∨
    e = "Invalid cast from " ++ v.debug_str ++ " to node")

lemma try_to_vec2_err {v : MyValueType} {e : String}
    (h : v.try_to_vec2 = .error e) : ErrShape e := by
  cases v <;> simp [MyValueType.try_to_vec2] at h <;>
    exact Or.inr ⟨_, Or.inl h.symm⟩

lemma try_to_scalar_err {v : MyValueType} {e : String}
    (h : v.try_to_scalar = .error e) : ErrShape e := by
  cases v <;> simp [MyValueType.try_to_scalar] at h <;>
    exact Or.inr ⟨_, Or.inr (Or.inl h.symm)⟩

lemma try_to_node_err {v : MyValueType} {e : String}
    (h : v.try_to_node = .error e) : ErrShape e := by
  cases v <;> simp [MyValueType.try_to_node] at h <;>
    exact Or.inr ⟨_, Or.inr (Or.inr h.symm)⟩

lemma get_output_err {g : MyGraph} {nid : NodeId} {name e : String}
    (h : get_output g nid name = .err e) : e = no_param_msg name := by
  rw [get_output] at h
  split at h
  · simp at h
  · split at h
    · simp at h
    · simp at h
      exact h.symm

lemma get_input_err {g : MyGraph} {nid : NodeId} {name e : String}
    (h : get_input g nid name = .err e) : e = no_param_msg name := by
  rw [get_input] at h
  split at h
  · simp at h
  · split at h
    · simp at h
    · simp at h
      exact h.symm

lemma coerce_snd {α : Type} (f : MyValueType → Except String α)
    (r : EvalResult MyValueType × OutputsCache) : (coerce f r).2 = r.2 := by
  obtain ⟨r1, c⟩ := r
  rfl

lemma coerce_err_inv {α : Type} {f : MyValueType → Except String α}
    {r : EvalResult MyValueType × OutputsCache} {e : String} {c' : OutputsCache}
    (h : coerce f r = (.err e, c')) :
    r = (.err e, c') ∨ ∃ v, r.1 = .ok v ∧ f v = .error e := by
  obtain ⟨r1, c⟩ := r
  cases r1 with
  | ok v =>
    right
    refine ⟨v, rfl, ?_⟩
    simp [coerce, withOkE] at h
    cases hf : f v with
    | ok a => rw [hf] at h; simp [liftE] at h
    | error e1 =>
      rw [hf] at h
      simp [liftE] at h
      rw [h.1]
  | err e1 =>
    left
    simp [coerce, withOkE] at h
    simp [h]
  | panic m => simp [coerce, withOkE] at h
  | fuelOut => simp [coerce, withOkE] at h

lemma arm1_err_inv {α : Type} {g : MyGraph} {nid : NodeId}
    {ev : String → OutputsCache → EvalResult MyValueType × OutputsCache}
    {f1 : MyValueType → Except String α} {n1 out_name : String}
    {F : α → MyValueType} {c c' : OutputsCache} {e : String}
    (h : arm1 g nid ev f1 n1 out_name F c = (.err e, c')) :
    (∃ c₀ c₁, ev n1 c₀ = (.err e, c₁)) ∨
    (∃ v, f1 v = .error e) ∨
    (get_output g nid out_name = .err e) := by
  rcases hr1 : ev n1 c with ⟨r1, c₀⟩
  rw [arm1, hr1] at h
  cases r1 with
  | err e1 =>
    simp [coerce, withOkE, withOk] at h
    rw [h.1] at hr1
    exact Or.inl ⟨c, c₀, hr1⟩
  | panic m => simp [coerce, withOkE, withOk] at h
  | fuelOut => simp [coerce, withOkE, withOk] at h
  | ok v =>
    cases hf : f1 v with
    | error e1 =>
      simp [coerce, withOkE, hf, liftE, withOk] at h
      rw [h.1] at hf
      exact Or.inr (Or.inl ⟨v, hf⟩)
    | ok a =>
      simp [coerce, withOkE, hf, liftE, withOk, populate_output] at h
      cases ho : get_output g nid out_name with
      | ok oid => rw [ho] at h; simp at h
      | err e1 =>
        rw [ho] at h
        simp at h
        exact Or.inr (Or.inr (by rw [h.1]))
      | panic m => rw [ho] at h; simp at h
      | fuelOut => rw [ho] at h; simp at h

lemma arm2_err_inv {α β : Type} {g : MyGraph} {nid : NodeId}
    {ev : String → OutputsCache → EvalResult MyValueType × OutputsCache}
    {f1 : MyValueType → Except String α} {f2 : MyValueType → Except String β}
    {n1 n2 out_name : String} {F : α → β → MyValueType}
    {c c' : OutputsCache} {e : String}
    (h : arm2 g nid ev f1 n1 f2 n2 out_name F c = (.err e, c')) :
    (∃ c₀ c₁, ev n1 c₀ = (.err e, c₁)) ∨ (∃ c₀ c₁, ev n2 c₀ = (.err e, c₁)) ∨
    (∃ v, f1 v = .error e) ∨ (∃ v, f2 v = .error e) ∨
    (get_output g nid out_name = .err e) := by
  rcases hr1 : ev n1 c with ⟨r1, c₀⟩
  rw [arm2, hr1] at h
  cases r1 with
  | err e1 =>
    simp [coerce, withOkE, withOk] at h
    rw [h.1] at hr1
    exact Or.inl ⟨c, c₀, hr1⟩
  | panic m => simp [coerce, withOkE, withOk] at h
  | fuelOut => simp [coerce, withOkE, withOk] at h
  | ok v =>
    cases hf : f1 v with
    | error e1 =>
      simp [coerce, withOkE, hf, liftE, withOk] at h
      rw [h.1] at hf
      exact Or.inr (Or.inr (Or.inl ⟨v, hf⟩))
    | ok a =>
      rw [coerce] at h
      simp only [withOkE, hf, liftE] at h
      rw [withOk] at h
      rcases hr2 : ev n2 c₀ with ⟨r2, c₁⟩
      rw [hr2] at h
      cases r2 with
      | err e1 =>
        simp [coerce, withOkE, withOk] at h
        rw [h.1] at hr2
        exact Or.inr (Or.inl ⟨c₀, c₁, hr2⟩)
      | panic m => simp [coerce, withOkE, withOk] at h
      | fuelOut => simp [coerce, withOkE, withOk] at h
      | ok v2 =>
        cases hf2 : f2 v2 with
        | error e1 =>
          simp [coerce, withOkE, hf2, liftE, withOk] at h
          rw [h.1] at hf2
          exact Or.inr (Or.inr (Or.inr (Or.inl ⟨v2, hf2⟩)))
        | ok b =>
          simp [coerce, withOkE, hf2, liftE, withOk, populate_output] at h
          cases ho : get_output g nid out_name with
          | ok oid => rw [ho] at h; simp at h
          | err e1 =>
            rw [ho] at h
            simp at h
            exact Or.inr (Or.inr (Or.inr (Or.inr (by rw [h.1]))))
          | panic m => rw [ho] at h; simp at h
          | fuelOut => rw [ho] at h; simp at h

/-- Every error a template arm returns is a port-lookup error, a coercion
error, or an error already returned by an input resolution. -/
lemma node_arm_err_shape {g : MyGraph} {nid : NodeId} {t : MyNodeTemplate}
    {ev : String → OutputsCache → EvalResult MyValueType × OutputsCache}
    {c c' : OutputsCache} {e : String}
    (hev : ∀ name c₀ c₁, ev name c₀ = (.err e, c₁) → ErrShape e)
    (h : node_arm g nid t ev c = (.err e, c')) : ErrShape e := by
  cases t <;>
    first
    | (rcases arm1_err_inv h with ⟨c₀, c₁, h1⟩ | ⟨v, hv⟩ | hout
       · exact hev _ _ _ h1
       · first
           | exact try_to_scalar_err hv
           | exact try_to_vec2_err hv
           | exact try_to_node_err hv
       · exact Or.inl ⟨_, get_output_err hout⟩)
    | (rcases arm2_err_inv h with ⟨c₀, c₁, h1⟩ | ⟨c₀, c₁, h1⟩ | ⟨v, hv⟩ | ⟨v, hv⟩ | hout
       · exact hev _ _ _ h1
       · exact hev _ _ _ h1
       · first
           | exact try_to_scalar_err hv
           | exact try_to_vec2_err hv
           | exact try_to_node_err hv
       · first
           | exact try_to_scalar_err hv
           | exact try_to_vec2_err hv
           | exact try_to_node_err hv
       · exact Or.inl ⟨_, get_output_err hout⟩)

/-- Every error input_step returns is a port-lookup error or an error already
returned by the upstream node evaluation. -/
lemma input_step_err_shape {g : MyGraph} {nid : NodeId} {pname : String}
    {evn : NodeId → OutputsCache → EvalResult MyValueType × OutputsCache}
    {c c' : OutputsCache} {e : String}
    (hevn : ∀ m c₀ c₁, evn m c₀ = (.err e, c₁) → ErrShape e)
    (h : input_step g nid pname evn c = (.err e, c')) : ErrShape e := by
  rw [input_step] at h
  split at h
  · -- get_input ok
    split at h
    · -- connection present
      split at h
      · -- cache hit returns ok
        simp at h
      · -- cache miss
        split at h
        · -- dangling output id panics
          simp at h
        · -- upstream evaluation
          rename_i iid hi oid hcon hc p hop
          rcases hr : evn p.node c with ⟨r1, c₀⟩
          rw [hr] at h
          cases r1 with
          | ok a =>
            rw [withOk] at h
            cases hc2 : c₀.lookup iid <;> rw [hc2] at h <;> simp at h
          | err e1 =>
            rw [withOk] at h
            simp at h
            rw [h.1] at hr
            exact hevn _ _ _ hr
          | panic m => rw [withOk] at h; simp at h
          | fuelOut => rw [withOk] at h; simp at h
    · -- no connection: constant or dangling input id
      split at h <;> simp at h
  · -- get_input errs
    rename_i e1 hi
    simp at h
    rw [h.1] at hi
    exact Or.inl ⟨_, get_input_err hi⟩
  · -- get_input panics
    simp at h
  · -- get_input out of fuel (never happens)
    simp at h

/-! Cache extension: evaluation only ever adds entries in front. -/

/-- The second cache extends the first: entries were only added. -/
def Extends (c' c : OutputsCache) : Prop := ∃ pre, c' = pre ++ c

lemma extends_refl (c : OutputsCache) : Extends c c := ⟨[], rfl⟩

lemma extends_trans {c₂ c₁ c₀ : OutputsCache} (h2 : Extends c₂ c₁) (h1 : Extends c₁ c₀) :
    Extends c₂ c₀ := by
  obtain ⟨p2, h2⟩ := h2
  obtain ⟨p1, h1⟩ := h1
  exact ⟨p2 ++ p1, by rw [h2, h1, List.append_assoc]⟩

lemma extends_cons {c' c : OutputsCache} (x : OutputId × MyValueType)
    (h : Extends c' c) : Extends (x :: c') c := by
  obtain ⟨p, hp⟩ := h
  exact ⟨x :: p, by rw [hp]; rfl⟩

lemma extends_lookup_isSome {c' c : OutputsCache} {o : OutputId}
    (h : Extends c' c) (hs : (c.lookup o).isSome) : (c'.lookup o).isSome := by
  obtain ⟨p, hp⟩ := h
  subst hp
  cases hpre : p.lookup o with
  | some v => rw [lookup_append_left hpre]; rfl
  | none =>
    rw [lookup_append_right hpre]
    exact hs

lemma populate_extends (g : MyGraph) (c : OutputsCache) (nid : NodeId)
    (name : String) (v : MyValueType) :
    Extends (populate_output g c nid name v).2 c := by
  rw [populate_output]
  cases get_output g nid name with
  | ok oid => exact extends_cons _ (extends_refl c)
  | err e => exact extends_refl c
  | panic m => exact extends_refl c
  | fuelOut => exact extends_refl c

lemma arm1_extends {α : Type} {g : MyGraph} {nid : NodeId}
    {ev : String → OutputsCache → EvalResult MyValueType × OutputsCache}
    {f1 : MyValueType → Except String α} {n1 out_name : String}
    {F : α → MyValueType} {c : OutputsCache}
    (hev : ∀ name c₀, Extends ((ev name c₀).2) c₀) :
    Extends ((arm1 g nid ev f1 n1 out_name F c).2) c := by
  rw [arm1]
  rcases hr1 : ev n1 c with ⟨r1, c₀⟩
  have h₀ : Extends c₀ c := by
    have := hev n1 c
    rw [hr1] at this
    exact this
  cases r1 with
  | ok v =>
    cases hf : f1 v with
    | ok a =>
      simp only [coerce, withOkE, hf, liftE, withOk]
      exact extends_trans (populate_extends g c₀ nid out_name (F a)) h₀
    | error e =>
      simp only [coerce, withOkE, hf, liftE, withOk]
      exact h₀
  | err e => simp only [coerce, withOkE, withOk]; exact h₀
  | panic m => simp only [coerce, withOkE, withOk]; exact h₀
  | fuelOut => simp only [coerce, withOkE, withOk]; exact h₀

lemma arm2_extends {α β : Type} {g : MyGraph} {nid : NodeId}
    {ev : String → OutputsCache → EvalResult MyValueType × OutputsCache}
    {f1 : MyValueType → Except String α} {f2 : MyValueType → Except String β}
    {n1 n2 out_name : String} {F : α → β → MyValueType} {c : OutputsCache}
    (hev : ∀ name c₀, Extends ((ev name c₀).2) c₀) :
    Extends ((arm2 g nid ev f1 n1 f2 n2 out_name F c).2) c := by
  rw [arm2]
  rcases hr1 : ev n1 c with ⟨r1, c₀⟩
  have h₀ : Extends c₀ c := by
    have := hev n1 c
    rw [hr1] at this
    exact this
  cases r1 with
  | ok v =>
    cases hf : f1 v with
    | ok a =>
      simp only [coerce, withOkE, hf, liftE, withOk]
      rcases hr2 : ev n2 c₀ with ⟨r2, c₁⟩
      have h₁ : Extends c₁ c₀ := by
        have := hev n2 c₀
        rw [hr2] at this
        exact this
      cases r2 with
      | ok v2 =>
        cases hf2 : f2 v2 with
        | ok b =>
          simp only [coerce, withOkE, hf2, liftE, withOk]
          exact extends_trans
            (extends_trans (populate_extends g c₁ nid out_name (F a b)) h₁) h₀
        | error e =>
          simp only [coerce, withOkE, hf2, liftE, withOk]
          exact extends_trans h₁ h₀
      | err e => simp only [coerce, withOkE, withOk]; exact extends_trans h₁ h₀
      | panic m => simp only [coerce, withOkE, withOk]; exact extends_trans h₁ h₀
      | fuelOut => simp only [coerce, withOkE, withOk]; exact extends_trans h₁ h₀
    | error e =>
      simp only [coerce, withOkE, hf, liftE, withOk]
      exact h₀
  | err e => simp only [coerce, withOkE, withOk]; exact h₀
  | panic m => simp only [coerce, withOkE, withOk]; exact h₀
  | fuelOut => simp only [coerce, withOkE, withOk]; exact h₀

lemma node_arm_extends {g : MyGraph} {nid : NodeId} {t : MyNodeTemplate}
    {ev : String → OutputsCache → EvalResult MyValueType × OutputsCache}
    {c : OutputsCache}
    (hev : ∀ name c₀, Extends ((ev name c₀).2) c₀) :
    Extends ((node_arm g nid t ev c).2) c := by
  cases t <;>
    first
      | exact arm1_extends hev
      | exact arm2_extends hev

lemma input_step_extends {g : MyGraph} {nid : NodeId} {pname : String}
    {evn : NodeId → OutputsCache → EvalResult MyValueType × OutputsCache}
    {c : OutputsCache}
    (hevn : ∀ m c₀, Extends ((evn m c₀).2) c₀) :
    Extends ((input_step g nid pname evn c).2) c := by
  rw [input_step]
  split
  · -- get_input ok
    split
    · -- connection present
      split
      · -- cache hit
        exact extends_refl c
      · -- cache miss
        split
        · -- dangling output id
          exact extends_refl c
        · -- upstream evaluation
          rename_i p hp
          rcases hr : evn p.node c with ⟨r1, c₀⟩
          have h₀ : Extends c₀ c := by
            have := hevn p.node c
            rw [hr] at this
            exact this
          cases r1 with
          | ok a =>
            rw [withOk]
            split
            · exact h₀
            · exact h₀
          | err e => rw [withOk]; exact h₀
          | panic m => rw [withOk]; exact h₀
          | fuelOut => rw [withOk]; exact h₀
    · -- no connection
      split
      · exact extends_refl c
      · exact extends_refl c
  · exact extends_refl c
  · exact extends_refl c
  · exact extends_refl c

/-- Evaluation only ever adds cache entries: the final cache extends the
initial one, at every fuel. -/
lemma eval_extends (fuel : Nat) :
    (∀ g n c, Extends ((evaluate_node fuel g n c).2) c) ∧
    (∀ g n name c, Extends ((evaluate_input fuel g n name c).2) c) := by
  induction fuel with
  | zero =>
    constructor
    · intro g n c
      rw [evaluate_node_zero]
      exact extends_refl c
    · intro g n name c
      rw [evaluate_input_zero]
      exact extends_refl c
  | succ f ih =>
    constructor
    · intro g n c
      rw [evaluate_node_succ]
      cases g.nodes.lookup n with
      | none => exact extends_refl c
      | some nd => exact node_arm_extends fun name c₀ => ih.2 g n name c₀
    · intro g n name c
      rw [evaluate_input_succ]
      exact input_step_extends fun m c₀ => ih.1 g m c₀

/-! Fuel-exhaustion provenance: running out of fuel always comes from a
recursive input resolution. -/

lemma get_output_ne_fuelOut (g : MyGraph) (nid : NodeId) (name : String) :
    get_output g nid name ≠ .fuelOut := by
  rw [get_output]
  split
  · simp
  · split <;> simp

lemma get_input_ne_fuelOut (g : MyGraph) (nid : NodeId) (name : String) :
    get_input g nid name ≠ .fuelOut := by
  rw [get_input]
  split
  · simp
  · split <;> simp

lemma arm1_fuelOut_inv {α : Type} {g : MyGraph} {nid : NodeId}
    {ev : String → OutputsCache → EvalResult MyValueType × OutputsCache}
    {f1 : MyValueType → Except String α} {n1 out_name : String}
    {F : α → MyValueType} {c c' : OutputsCache}
    (h : arm1 g nid ev f1 n1 out_name F c = (.fuelOut, c')) :
    ∃ c₁, ev n1 c = (.fuelOut, c₁) := by
  rcases hr1 : ev n1 c with ⟨r1, c₀⟩
  rw [arm1, hr1] at h
  cases r1 with
  | fuelOut => exact ⟨c₀, rfl⟩
  | err e => simp [coerce, withOkE, withOk] at h
  | panic m => simp [coerce, withOkE, withOk] at h
  | ok v =>
    cases hf : f1 v with
    | error e => simp [coerce, withOkE, hf, liftE, withOk] at h
    | ok a =>
      simp [coerce, withOkE, hf, liftE, withOk, populate_output] at h
      cases ho : get_output g nid out_name with
      | ok oid => rw [ho] at h; simp at h
      | err e => rw [ho] at h; simp at h
      | panic m => rw [ho] at h; simp at h
      | fuelOut => exact absurd ho (get_output_ne_fuelOut _ _ _)

lemma arm2_fuelOut_inv {α β : Type} {g : MyGraph} {nid : NodeId}
    {ev : String → OutputsCache → EvalResult MyValueType × OutputsCache}
    {f1 : MyValueType → Except String α} {f2 : MyValueType → Except String β}
    {n1 n2 out_name : String} {F : α → β → MyValueType} {c c' : OutputsCache}
    (h : arm2 g nid ev f1 n1 f2 n2 out_name F c = (.fuelOut, c')) :
    (∃ c₁, ev n1 c = (.fuelOut, c₁)) ∨ (∃ c₀ c₁, ev n2 c₀ = (.fuelOut, c₁)) := by
  rcases hr1 : ev n1 c with ⟨r1, c₀⟩
  rw [arm2, hr1] at h
  cases r1 with
  | fuelOut => exact Or.inl ⟨c₀, rfl⟩
  | err e => simp [coerce, withOkE, withOk] at h
  | panic m => simp [coerce, withOkE, withOk] at h
  | ok v =>
    cases hf : f1 v with
    | error e => simp [coerce, withOkE, hf, liftE, withOk] at h
    | ok a =>
      rw [coerce] at h
      simp only [withOkE, hf, liftE] at h
      rw [withOk] at h
      rcases hr2 : ev n2 c₀ with ⟨r2, c₁⟩
      rw [hr2] at h
      cases r2 with
      | fuelOut => exact Or.inr ⟨c₀, c₁, by rw [hr2]⟩
      | err e => simp [coerce, withOkE, withOk] at h
      | panic m => simp [coerce, withOkE, withOk] at h
      | ok v2 =>
        cases hf2 : f2 v2 with
        | error e => simp [coerce, withOkE, hf2, liftE, withOk] at h
        | ok b =>
          simp [coerce, withOkE, hf2, liftE, withOk, populate_output] at h
          cases ho : get_output g nid out_name with
          | ok oid => rw [ho] at h; simp at h
          | err e => rw [ho] at h; simp at h
          | panic m => rw [ho] at h; simp at h
          | fuelOut => exact absurd ho (get_output_ne_fuelOut _ _ _)

lemma node_arm_fuelOut_inv {g : MyGraph} {nid : NodeId} {t : MyNodeTemplate}
    {ev : String → OutputsCache → EvalResult MyValueType × OutputsCache}
    {c c' : OutputsCache}
    (h : node_arm g nid t ev c = (.fuelOut, c')) :
    ∃ name c₀ c₁, ev name c₀ = (.fuelOut, c₁) := by
  cases t <;>
    first
    | (exact (arm1_fuelOut_inv h).elim fun c₁ h1 => ⟨_, c, c₁, h1⟩)
    | (rcases arm2_fuelOut_inv h with ⟨c₁, h1⟩ | ⟨c₀, c₁, h1⟩
       · exact ⟨_, c, c₁, h1⟩
       · exact ⟨_, c₀, c₁, h1⟩)

lemma input_step_fuelOut_inv {g : MyGraph} {nid : NodeId} {pname : String}
    {evn : NodeId → OutputsCache → EvalResult MyValueType × OutputsCache}
    {c c' : OutputsCache}
    (h : input_step g nid pname evn c = (.fuelOut, c')) :
    ∃ iid oid p c₁, get_input g nid pname = .ok iid ∧ g.connection iid = some oid ∧
      c.lookup oid = none ∧ g.output_params.lookup oid = some p ∧
      evn p.node c = (.fuelOut, c₁) := by
  rw [input_step] at h
  split at h
  · split at h
    · split at h
      · simp at h
      · split at h
        · simp at h
        · rename_i input_id hgi s8 oid hcon s5 hc s3 p hop
          rcases hr : evn p.node c with ⟨r1, c₀⟩
          rw [hr] at h
          cases r1 with
          | ok a =>
            rw [withOk] at h
            cases hc2 : c₀.lookup oid <;> rw [hc2] at h <;> simp at h
          | err e1 => rw [withOk] at h; simp at h
          | panic m => rw [withOk] at h; simp at h
          | fuelOut =>
            exact ⟨input_id, oid, p, c₀, hgi, hcon, hc, hop, hr⟩
    · split at h <;> simp at h
  · simp at h
  · simp at h
  · rename_i hgi
    exact absurd hgi (get_input_ne_fuelOut _ _ _)

/-! Monotonicity of the naive evaluator in fuel, hence its determinism. -/

lemma arm1N_mono {α : Type} {g : MyGraph} {nid : NodeId}
    {ev ev' : String → EvalResult MyValueType}
    {f1 : MyValueType → Except String α} {n1 out_name : String} {F : α → MyValueType}
    (hagree : ∀ name r, ev name = r → r ≠ .fuelOut → ev' name = r)
    (hne : arm1N g nid ev f1 n1 out_name F ≠ .fuelOut) :
    arm1N g nid ev' f1 n1 out_name F = arm1N g nid ev f1 n1 out_name F := by
  cases h1 : ev n1 with
  | fuelOut => exact absurd (by rw [arm1N, h1]; rfl) hne
  | ok v => rw [arm1N, arm1N, hagree n1 _ h1 (by simp), h1]
  | err e => rw [arm1N, arm1N, hagree n1 _ h1 (by simp), h1]
  | panic m => rw [arm1N, arm1N, hagree n1 _ h1 (by simp), h1]

lemma arm2N_mono {α β : Type} {g : MyGraph} {nid : NodeId}
    {ev ev' : String → EvalResult MyValueType}
    {f1 : MyValueType → Except String α} {f2 : MyValueType → Except String β}
    {n1 n2 out_name : String} {F : α → β → MyValueType}
    (hagree : ∀ name r, ev name = r → r ≠ .fuelOut → ev' name = r)
    (hne : arm2N g nid ev f1 n1 f2 n2 out_name F ≠ .fuelOut) :
    arm2N g nid ev' f1 n1 f2 n2 out_name F = arm2N g nid ev f1 n1 f2 n2 out_name F := by
  cases h1 : ev n1 with
  | fuelOut => exact absurd (by rw [arm2N, h1]; rfl) hne
  | err e =>
    have l1 : arm2N g nid ev' f1 n1 f2 n2 out_name F = .err e := by
      rw [arm2N, hagree n1 _ h1 (by simp)]
      rfl
    have l2 : arm2N g nid ev f1 n1 f2 n2 out_name F = .err e := by
      rw [arm2N, h1]
      rfl
    rw [l1, l2]
  | panic m =>
    have l1 : arm2N g nid ev' f1 n1 f2 n2 out_name F = .panic m := by
      rw [arm2N, hagree n1 _ h1 (by simp)]
      rfl
    have l2 : arm2N g nid ev f1 n1 f2 n2 out_name F = .panic m := by
      rw [arm2N, h1]
      rfl
    rw [l1, l2]
  | ok v =>
    have e1 : ev' n1 = .ok v := hagree n1 _ h1 (by simp)
    cases hf : f1 v with
    | error e =>
      have l1 : arm2N g nid ev' f1 n1 f2 n2 out_name F = .err e := by
        rw [arm2N, e1]
        simp [withOkE, liftE, hf]
      have l2 : arm2N g nid ev f1 n1 f2 n2 out_name F = .err e := by
        rw [arm2N, h1]
        simp [withOkE, liftE, hf]
      rw [l1, l2]
    | ok a =>
      cases h2 : ev n2 with
      | fuelOut =>
        exfalso
        apply hne
        rw [arm2N, h1]
        simp [withOkE, liftE, hf, h2]
      | ok v2 =>
        have e2 : ev' n2 = .ok v2 := hagree n2 _ h2 (by simp)
        have l1 : arm2N g nid ev' f1 n1 f2 n2 out_name F =
            withOkE (liftE (f2 v2)) fun b => naive_populate g nid out_name (F a b) := by
          rw [arm2N, e1, e2]
          simp [withOkE, liftE, hf]
        have l2 : arm2N g nid ev f1 n1 f2 n2 out_name F =
            withOkE (liftE (f2 v2)) fun b => naive_populate g nid out_name (F a b) := by
          rw [arm2N, h1, h2]
          simp [withOkE, liftE, hf]
        rw [l1, l2]
      | err e =>
        have e2 : ev' n2 = .err e := hagree n2 _ h2 (by simp)
        have l1 : arm2N g nid ev' f1 n1 f2 n2 out_name F = .err e := by
          rw [arm2N, e1, e2]
          simp [withOkE, liftE, hf]
        have l2 : arm2N g nid ev f1 n1 f2 n2 out_name F = .err e := by
          rw [arm2N, h1, h2]
          simp [withOkE, liftE, hf]
        rw [l1, l2]
      | panic m =>
        have e2 : ev' n2 = .panic m := hagree n2 _ h2 (by simp)
        have l1 : arm2N g nid ev' f1 n1 f2 n2 out_name F = .panic m := by
          rw [arm2N, e1, e2]
          simp [withOkE, liftE, hf]
        have l2 : arm2N g nid ev f1 n1 f2 n2 out_name F = .panic m := by
          rw [arm2N, h1, h2]
          simp [withOkE, liftE, hf]
        rw [l1, l2]

lemma naive_node_arm_mono {g : MyGraph} {nid : NodeId} {t : MyNodeTemplate}
    {ev ev' : String → EvalResult MyValueType}
    (hagree : ∀ name r, ev name = r → r ≠ .fuelOut → ev' name = r)
    (hne : naive_node_arm g nid t ev ≠ .fuelOut) :
    naive_node_arm g nid t ev' = naive_node_arm g nid t ev := by
  cases t <;>
    first
      | exact arm1N_mono hagree hne
      | exact arm2N_mono hagree hne

lemma naive_input_step_mono {g : MyGraph} {nid : NodeId} {pname : String}
    {evo evo' : OutputId → EvalResult MyValueType}
    (hagree : ∀ o r, evo o = r → r ≠ .fuelOut → evo' o = r)
    (hne : naive_input_step g nid pname evo ≠ .fuelOut) :
    naive_input_step g nid pname evo' = naive_input_step g nid pname evo := by
  cases hgi : get_input g nid pname with
  | ok iid =>
    cases hcon : g.connection iid with
    | some o =>
      have l2 : naive_input_step g nid pname evo = evo o := by
        simp [naive_input_step, hgi, hcon]
      have l1 : naive_input_step g nid pname evo' = evo' o := by
        simp [naive_input_step, hgi, hcon]
      rw [l1, l2]
      exact hagree o _ rfl (by rw [← l2]; exact hne)
    | none => simp [naive_input_step, hgi, hcon]
  | err e => simp [naive_input_step, hgi]
  | panic m => simp [naive_input_step, hgi]
  | fuelOut => simp [naive_input_step, hgi]

lemma naive_output_step_mono {g : MyGraph} {oid : OutputId}
    {evc evc' : NodeId → EvalResult (OutputId × MyValueType)}
    (hagree : ∀ m r, evc m = r → r ≠ .fuelOut → evc' m = r)
    (hne : naive_output_step g oid evc ≠ .fuelOut) :
    naive_output_step g oid evc' = naive_output_step g oid evc := by
  cases hop : g.output_params.lookup oid with
  | none => simp [naive_output_step, hop]
  | some p =>
    cases h2 : evc p.node with
    | fuelOut =>
      exfalso
      apply hne
      simp [naive_output_step, hop, h2]
    | ok pr =>
      have := hagree p.node _ h2 (by simp)
      simp [naive_output_step, hop, h2, this]
    | err e =>
      have := hagree p.node _ h2 (by simp)
      simp [naive_output_step, hop, h2, this]
    | panic m =>
      have := hagree p.node _ h2 (by simp)
      simp [naive_output_step, hop, h2, this]

/-- One extra unit of fuel does not change a naive result that did not run
out of fuel. -/
lemma naive_mono (fuel : Nat) :
    (∀ g n, naive_node_core fuel g n ≠ .fuelOut →
      naive_node_core (fuel + 1) g n = naive_node_core fuel g n) ∧
    (∀ g n name, naive_input fuel g n name ≠ .fuelOut →
      naive_input (fuel + 1) g n name = naive_input fuel g n name) ∧
    (∀ g o, naive_output fuel g o ≠ .fuelOut →
      naive_output (fuel + 1) g o = naive_output fuel g o) := by
  induction fuel with
  | zero =>
    refine ⟨?_, ?_, ?_⟩
    · intro g n h
      exact absurd (naive_node_core_zero g n) h
    · intro g n name h
      exact absurd (naive_input_zero g n name) h
    · intro g o h
      exact absurd (naive_output_zero g o) h
  | succ f ih =>
    obtain ⟨ihc, ihi, iho⟩ := ih
    refine ⟨?_, ?_, ?_⟩
    · intro g n hne
      rw [naive_node_core_succ, naive_node_core_succ]
      cases hnd : g.nodes.lookup n with
      | none => rfl
      | some nd =>
        have hne2 : naive_node_arm g n nd.user_data.template (naive_input f g n) ≠ .fuelOut := by
          intro hcon
          apply hne
          rw [naive_node_core_succ, hnd]
          exact hcon
        exact naive_node_arm_mono
          (fun name r hr hnf => by
            rw [ihi g n name (by rw [hr]; exact hnf), hr])
          hne2
    · intro g n name hne
      rw [naive_input_succ, naive_input_succ]
      rw [naive_input_succ] at hne
      exact naive_input_step_mono
        (fun o r hr hnf => by
          rw [iho g o (by rw [hr]; exact hnf), hr])
        hne
    · intro g o hne
      rw [naive_output_succ, naive_output_succ]
      rw [naive_output_succ] at hne
      exact naive_output_step_mono
        (fun m r hr hnf => by
          rw [ihc g m (by rw [hr]; exact hnf), hr])
        hne

lemma naive_core_mono_le {f f' : Nat} (h : f ≤ f') {g : MyGraph} {n : NodeId}
    {r : EvalResult (OutputId × MyValueType)}
    (hr : naive_node_core f g n = r) (hne : r ≠ .fuelOut) :
    naive_node_core f' g n = r := by
  induction h with
  | refl => exact hr
  | step h2 ih =>
    rw [(naive_mono _).1 g n (by rw [ih]; exact hne), ih]

lemma naive_input_mono_le {f f' : Nat} (h : f ≤ f') {g : MyGraph} {n : NodeId}
    {name : String} {r : EvalResult MyValueType}
    (hr : naive_input f g n name = r) (hne : r ≠ .fuelOut) :
    naive_input f' g n name = r := by
  induction h with
  | refl => exact hr
  | step h2 ih =>
    rw [(naive_mono _).2.1 g n name (by rw [ih]; exact hne), ih]

lemma naive_output_mono_le {f f' : Nat} (h : f ≤ f') {g : MyGraph} {o : OutputId}
    {r : EvalResult MyValueType}
    (hr : naive_output f g o = r) (hne : r ≠ .fuelOut) :
    naive_output f' g o = r := by
  induction h with
  | refl => exact hr
  | step h2 ih =>
    rw [(naive_mono _).2.2 g o (by rw [ih]; exact hne), ih]

lemma naive_output_det {f f' : Nat} {g : MyGraph} {o : OutputId}
    {r r' : EvalResult MyValueType}
    (h1 : naive_output f g o = r) (hn1 : r ≠ .fuelOut)
    (h2 : naive_output f' g o = r') (hn2 : r' ≠ .fuelOut) : r = r' := by
  have a1 := naive_output_mono_le (Nat.le_max_left f f') h1 hn1
  have a2 := naive_output_mono_le (Nat.le_max_right f f') h2 hn2
  rw [a1] at a2
  exact a2

lemma naive_core_det {f f' : Nat} {g : MyGraph} {n : NodeId}
    {r r' : EvalResult (OutputId × MyValueType)}
    (h1 : naive_node_core f g n = r) (hn1 : r ≠ .fuelOut)
    (h2 : naive_node_core f' g n = r') (hn2 : r' ≠ .fuelOut) : r = r' := by
  have a1 := naive_core_mono_le (Nat.le_max_left f f') h1 hn1
  have a2 := naive_core_mono_le (Nat.le_max_right f f') h2 hn2
  rw [a1] at a2
  exact a2

/-! Sufficient fuel: on graphs with a height function the evaluator never
runs out of fuel. -/

lemma get_input_ok {g : MyGraph} {nid : NodeId} {name : String} {iid : InputId}
    (h : get_input g nid name = .ok iid) :
    ∃ nd, g.nodes.lookup nid = some nd ∧ nd.inputs.lookup name = some iid := by
  rw [get_input] at h
  cases hnd : g.nodes.lookup nid with
  | none => rw [hnd] at h; simp at h
  | some nd =>
    rw [hnd] at h
    have h2 : (match nd.inputs.lookup name with
        | some iid2 => EvalResult.ok iid2
        | none => EvalResult.err (no_param_msg name)) = EvalResult.ok iid := h
    cases hin : nd.inputs.lookup name with
    | none =>
      rw [hin] at h2
      have h3 : EvalResult.err (α := InputId) (no_param_msg name) = .ok iid := h2
      cases h3
    | some j =>
      rw [hin] at h2
      have h3 : EvalResult.ok j = .ok iid := h2
      cases h3
      exact ⟨nd, rfl, hin⟩

lemma get_output_ok {g : MyGraph} {nid : NodeId} {name : String} {oid : OutputId}
    (h : get_output g nid name = .ok oid) :
    ∃ nd, g.nodes.lookup nid = some nd ∧ nd.outputs.lookup name = some oid := by
  rw [get_output] at h
  cases hnd : g.nodes.lookup nid with
  | none => rw [hnd] at h; simp at h
  | some nd =>
    rw [hnd] at h
    have h2 : (match nd.outputs.lookup name with
        | some oid2 => EvalResult.ok oid2
        | none => EvalResult.err (no_param_msg name)) = EvalResult.ok oid := h
    cases hout : nd.outputs.lookup name with
    | none =>
      rw [hout] at h2
      have h3 : EvalResult.err (α := OutputId) (no_param_msg name) = .ok oid := h2
      cases h3
    | some j =>
      rw [hout] at h2
      have h3 : EvalResult.ok j = .ok oid := h2
      cases h3
      exact ⟨nd, rfl, hout⟩

lemma decreasing_edge {g : MyGraph} {hgt : NodeId → Nat} {n : NodeId} {nd : GraphNode}
    {name : String} {iid : InputId} {oid : OutputId} {p : OutputParamData}
    (hdec : decreasing_chk g hgt = true)
    (hnd : g.nodes.lookup n = some nd) (hin : nd.inputs.lookup name = some iid)
    (hcon : g.connections.lookup iid = some oid)
    (hop : g.output_params.lookup oid = some p) :
    hgt p.node < hgt n := by
  rw [decreasing_chk, List.all_eq_true] at hdec
  have h1 := hdec (n, nd) (lookup_mem hnd)
  rw [List.all_eq_true] at h1
  have h2 := h1 (name, iid) (lookup_mem hin)
  simp only at h2
  rw [hcon] at h2
  simp only at h2
  rw [hop] at h2
  simpa using h2

/-- With a height function certifying acyclicity, fuel exceeding twice the
target's height never runs out. -/
lemma eval_terminates {g : MyGraph} {hgt : NodeId → Nat}
    (hdec : decreasing_chk g hgt = true) :
    ∀ fuel, (∀ n c, 2 * hgt n + 2 ≤ fuel → (evaluate_node fuel g n c).1 ≠ .fuelOut) ∧
      (∀ n name c, 2 * hgt n + 1 ≤ fuel →
        (evaluate_input fuel g n name c).1 ≠ .fuelOut) := by
  intro fuel
  induction fuel with
  | zero =>
    constructor
    · intro n c hb
      omega
    · intro n name c hb
      omega
  | succ f ih =>
    constructor
    · intro n c hb
      rw [evaluate_node_succ]
      cases hnd : g.nodes.lookup n with
      | none => simp
      | some nd =>
        intro hcon
        have hcon2 : (node_arm g n nd.user_data.template (evaluate_input f g n) c).1 =
            .fuelOut := hcon
        rcases harm : node_arm g n nd.user_data.template (evaluate_input f g n) c with ⟨r, c'⟩
        rw [harm] at hcon2
        have hr : r = .fuelOut := hcon2
        subst hr
        obtain ⟨name, c₀, c₁, hev⟩ := node_arm_fuelOut_inv harm
        have hb2 : 2 * hgt n + 1 ≤ f := by omega
        exact ih.2 n name c₀ hb2 (by rw [hev])
    · intro n name c hb
      rw [evaluate_input_succ]
      intro hcon
      rcases hstep : input_step g n name (evaluate_node f g) c with ⟨r, c'⟩
      rw [hstep] at hcon
      have hr : r = .fuelOut := hcon
      subst hr
      obtain ⟨iid, oid, p, c₁, hgi, hconn, hcm, hop, hev⟩ := input_step_fuelOut_inv hstep
      obtain ⟨nd, hnd, hin⟩ := get_input_ok hgi
      have hlt : hgt p.node < hgt n :=
        decreasing_edge hdec hnd hin hconn hop
      have hb2 : 2 * hgt p.node + 2 ≤ f := by omega
      exact ih.1 p.node c hb2 (by rw [hev])

/-! Refinement between the memoized and the naive evaluator. -/

lemma wf_output_owner {g : MyGraph} {n : NodeId} {nd : GraphNode} {name : String}
    {oid : OutputId} (hwf : wf g = true)
    (hnd : g.nodes.lookup n = some nd) (ho : nd.outputs.lookup name = some oid) :
    ∃ q, g.output_params.lookup oid = some q ∧ q.node = n := by
  rw [wf, List.all_eq_true] at hwf
  have h1 := hwf (n, nd) (lookup_mem hnd)
  rw [List.all_eq_true] at h1
  have h2 := h1 (name, oid) (lookup_mem ho)
  simp only at h2
  cases hop : g.output_params.lookup oid with
  | none => rw [hop] at h2; simp at h2
  | some q =>
    rw [hop] at h2
    simp at h2
    exact ⟨q, rfl, h2⟩

/-- What the memoized arm guarantees about its final cache, relative to the
naive arm's outcome: on ok the designated output sits at the head with a
consistent tail, otherwise the whole cache is consistent. -/
def ArmPost (g : MyGraph) (nid : NodeId) (out_name : String)
    (rn : EvalResult (OutputId × MyValueType)) (c' : OutputsCache) : Prop :=
  match rn with
  | .ok (o, v) =>
    get_output g nid out_name = .ok o ∧ ∃ c₀, c' = (o, v) :: c₀ ∧ Consistent g c₀
  | _ => Consistent g c'

lemma arm1_L1 {α : Type} {g : MyGraph} {nid : NodeId}
    {evN : String → EvalResult MyValueType}
    {ev : String → OutputsCache → EvalResult MyValueType × OutputsCache}
    {f1 : MyValueType → Except String α} {n1 out_name : String}
    {F : α → MyValueType} {c : OutputsCache} {rn : EvalResult (OutputId × MyValueType)}
    (hev : ∀ name c₀ r, Consistent g c₀ → evN name = r → r ≠ .fuelOut →
      ∃ c₁, ev name c₀ = (r, c₁) ∧ Consistent g c₁)
    (hc : Consistent g c)
    (hrn : arm1N g nid evN f1 n1 out_name F = rn) (hne : rn ≠ .fuelOut) :
    ∃ c', arm1 g nid ev f1 n1 out_name F c = (strip rn, c') ∧
      ArmPost g nid out_name rn c' := by
  cases h1 : evN n1 with
  | fuelOut =>
    have : rn = .fuelOut := by rw [← hrn, arm1N, h1]; rfl
    exact absurd this hne
  | err e =>
    have hrn2 : rn = .err e := by rw [← hrn, arm1N, h1]; rfl
    obtain ⟨c₁, hm, hcons⟩ := hev n1 c _ hc h1 (by simp)
    refine ⟨c₁, ?_, ?_⟩
    · rw [arm1, hm]
      simp [coerce, withOkE, withOk, hrn2, strip]
    · rw [hrn2]
      exact hcons
  | panic m =>
    have hrn2 : rn = .panic m := by rw [← hrn, arm1N, h1]; rfl
    obtain ⟨c₁, hm, hcons⟩ := hev n1 c _ hc h1 (by simp)
    refine ⟨c₁, ?_, ?_⟩
    · rw [arm1, hm]
      simp [coerce, withOkE, withOk, hrn2, strip]
    · rw [hrn2]
      exact hcons
  | ok v =>
    obtain ⟨c₁, hm, hcons⟩ := hev n1 c _ hc h1 (by simp)
    cases hf : f1 v with
    | error e =>
      have hrn2 : rn = .err e := by
        rw [← hrn, arm1N, h1]
        simp [withOkE, liftE, hf]
      refine ⟨c₁, ?_, ?_⟩
      · rw [arm1, hm]
        simp [coerce, withOkE, liftE, hf, withOk, hrn2, strip]
      · rw [hrn2]
        exact hcons
    | ok a =>
      cases ho : get_output g nid out_name with
      | ok oid =>
        have hrn2 : rn = .ok (oid, F a) := by
          rw [← hrn, arm1N, h1]
          simp [withOkE, liftE, hf, naive_populate, ho]
        refine ⟨(oid, F a) :: c₁, ?_, ?_⟩
        · rw [arm1, hm]
          simp [coerce, withOkE, liftE, hf, withOk, populate_output, ho, hrn2, strip]
        · rw [hrn2]
          exact ⟨ho, c₁, rfl, hcons⟩
      | err e =>
        have hrn2 : rn = .err e := by
          rw [← hrn, arm1N, h1]
          simp [withOkE, liftE, hf, naive_populate, ho]
        refine ⟨c₁, ?_, ?_⟩
        · rw [arm1, hm]
          simp [coerce, withOkE, liftE, hf, withOk, populate_output, ho, hrn2, strip]
        · rw [hrn2]
          exact hcons
      | panic m =>
        have hrn2 : rn = .panic m := by
          rw [← hrn, arm1N, h1]
          simp [withOkE, liftE, hf, naive_populate, ho]
        refine ⟨c₁, ?_, ?_⟩
        · rw [arm1, hm]
          simp [coerce, withOkE, liftE, hf, withOk, populate_output, ho, hrn2, strip]
        · rw [hrn2]
          exact hcons
      | fuelOut => exact absurd ho (get_output_ne_fuelOut _ _ _)

lemma arm2_L1 {α β : Type} {g : MyGraph} {nid : NodeId}
    {evN : String → EvalResult MyValueType}
    {ev : String → OutputsCache → EvalResult MyValueType × OutputsCache}
    {f1 : MyValueType → Except String α} {f2 : MyValueType → Except String β}
    {n1 n2 out_name : String} {F : α → β → MyValueType}
    {c : OutputsCache} {rn : EvalResult (OutputId × MyValueType)}
    (hev : ∀ name c₀ r, Consistent g c₀ → evN name = r → r ≠ .fuelOut →
      ∃ c₁, ev name c₀ = (r, c₁) ∧ Consistent g c₁)
    (hc : Consistent g c)
    (hrn : arm2N g nid evN f1 n1 f2 n2 out_name F = rn) (hne : rn ≠ .fuelOut) :
    ∃ c', arm2 g nid ev f1 n1 f2 n2 out_name F c = (strip rn, c') ∧
      ArmPost g nid out_name rn c' := by
  cases h1 : evN n1 with
  | fuelOut =>
    have : rn = .fuelOut := by rw [← hrn, arm2N, h1]; rfl
    exact absurd this hne
  | err e =>
    have hrn2 : rn = .err e := by rw [← hrn, arm2N, h1]; rfl
    obtain ⟨c₁, hm, hcons⟩ := hev n1 c _ hc h1 (by simp)
    refine ⟨c₁, ?_, ?_⟩
    · rw [arm2, hm]
      simp [coerce, withOkE, withOk, hrn2, strip]
    · rw [hrn2]
      exact hcons
  | panic m =>
    have hrn2 : rn = .panic m := by rw [← hrn, arm2N, h1]; rfl
    obtain ⟨c₁, hm, hcons⟩ := hev n1 c _ hc h1 (by simp)
    refine ⟨c₁, ?_, ?_⟩
    · rw [arm2, hm]
      simp [coerce, withOkE, withOk, hrn2, strip]
    · rw [hrn2]
      exact hcons
  | ok v =>
    obtain ⟨c₁, hm, hcons⟩ := hev n1 c _ hc h1 (by simp)
    cases hf : f1 v with
    | error e =>
      have hrn2 : rn = .err e := by
        rw [← hrn, arm2N, h1]
        simp [withOkE, liftE, hf]
      refine ⟨c₁, ?_, ?_⟩
      · rw [arm2, hm]
        simp [coerce, withOkE, liftE, hf, withOk, hrn2, strip]
      · rw [hrn2]
        exact hcons
    | ok a =>
      cases h2 : evN n2 with
      | fuelOut =>
        have : rn = .fuelOut := by
          rw [← hrn, arm2N, h1]
          simp [withOkE, liftE, hf, h2]
        exact absurd this hne
      | err e =>
        have hrn2 : rn = .err e := by
          rw [← hrn, arm2N, h1]
          simp [withOkE, liftE, hf, h2]
        obtain ⟨c₂, hm2, hcons2⟩ := hev n2 c₁ _ hcons h2 (by simp)
        refine ⟨c₂, ?_, ?_⟩
        · rw [arm2, hm]
          simp only [coerce, withOkE, liftE, hf, withOk]
          rw [hm2]
          simp [withOk, hrn2, strip]
        · rw [hrn2]
          exact hcons2
      | panic m =>
        have hrn2 : rn = .panic m := by
          rw [← hrn, arm2N, h1]
          simp [withOkE, liftE, hf, h2]
        obtain ⟨c₂, hm2, hcons2⟩ := hev n2 c₁ _ hcons h2 (by simp)
        refine ⟨c₂, ?_, ?_⟩
        · rw [arm2, hm]
          simp only [coerce, withOkE, liftE, hf, withOk]
          rw [hm2]
          simp [withOk, hrn2, strip]
        · rw [hrn2]
          exact hcons2
      | ok v2 =>
        obtain ⟨c₂, hm2, hcons2⟩ := hev n2 c₁ _ hcons h2 (by simp)
        cases hf2 : f2 v2 with
        | error e =>
          have hrn2 : rn = .err e := by
            rw [← hrn, arm2N, h1]
            simp [withOkE, liftE, hf, h2, hf2]
          refine ⟨c₂, ?_, ?_⟩
          · rw [arm2, hm]
            simp only [coerce, withOkE, liftE, hf, withOk]
            rw [hm2]
            simp [coerce, withOkE, liftE, hf2, withOk, hrn2, strip]
          · rw [hrn2]
            exact hcons2
        | ok b =>
          cases ho : get_output g nid out_name with
          | ok oid =>
            have hrn2 : rn = .ok (oid, F a b) := by
              rw [← hrn, arm2N, h1]
              simp [withOkE, liftE, hf, h2, hf2, naive_populate, ho]
            refine ⟨(oid, F a b) :: c₂, ?_, ?_⟩
            · rw [arm2, hm]
              simp only [coerce, withOkE, liftE, hf, withOk]
              rw [hm2]
              simp [coerce, withOkE, liftE, hf2, withOk, populate_output, ho, hrn2, strip]
            · rw [hrn2]
              exact ⟨ho, c₂, rfl, hcons2⟩
          | err e =>
            have hrn2 : rn = .err e := by
              rw [← hrn, arm2N, h1]
              simp [withOkE, liftE, hf, h2, hf2, naive_populate, ho]
            refine ⟨c₂, ?_, ?_⟩
            · rw [arm2, hm]
              simp only [coerce, withOkE, liftE, hf, withOk]
              rw [hm2]
              simp [coerce, withOkE, liftE, hf2, withOk, populate_output, ho, hrn2, strip]
            · rw [hrn2]
              exact hcons2
          | panic m =>
            have hrn2 : rn = .panic m := by
              rw [← hrn, arm2N, h1]
              simp [withOkE, liftE, hf, h2, hf2, naive_populate, ho]
            refine ⟨c₂, ?_, ?_⟩
            · rw [arm2, hm]
              simp only [coerce, withOkE, liftE, hf, withOk]
              rw [hm2]
              simp [coerce, withOkE, liftE, hf2, withOk, populate_output, ho, hrn2, strip]
            · rw [hrn2]
              exact hcons2
          | fuelOut => exact absurd ho (get_output_ne_fuelOut _ _ _)

lemma node_arm_L1 {g : MyGraph} {nid : NodeId} {t : MyNodeTemplate}
    {evN : String → EvalResult MyValueType}
    {ev : String → OutputsCache → EvalResult MyValueType × OutputsCache}
    {c : OutputsCache} {rn : EvalResult (OutputId × MyValueType)}
    (hev : ∀ name c₀ r, Consistent g c₀ → evN name = r → r ≠ .fuelOut →
      ∃ c₁, ev name c₀ = (r, c₁) ∧ Consistent g c₁)
    (hc : Consistent g c)
    (hrn : naive_node_arm g nid t evN = rn) (hne : rn ≠ .fuelOut) :
    ∃ c', node_arm g nid t ev c = (strip rn, c') ∧
      ArmPost g nid (arm_out_name t) rn c' := by
  cases t <;>
    first
      | exact arm1_L1 hev hc hrn hne
      | exact arm2_L1 hev hc hrn hne

/-- Direction one of the refinement: whatever the naive evaluator settles on,
the memoized evaluator computes from any consistent cache with the same fuel,
leaving a consistent cache; an ok outcome moreover sits at the cache head. -/
lemma L1 {g : MyGraph} (hwf : wf g = true) (fuel : Nat) :
    (∀ n c rn, Consistent g c → naive_node_core fuel g n = rn → rn ≠ .fuelOut →
      ∃ c', evaluate_node fuel g n c = (strip rn, c') ∧ Consistent g c' ∧
        (∀ o v, rn = .ok (o, v) → ∃ c₀, c' = (o, v) :: c₀)) ∧
    (∀ n name c r, Consistent g c → naive_input fuel g n name = r → r ≠ .fuelOut →
      ∃ c', evaluate_input fuel g n name c = (r, c') ∧ Consistent g c') := by
  induction fuel with
  | zero =>
    constructor
    · intro n c rn _ hrn hne
      rw [naive_node_core_zero] at hrn
      exact absurd hrn.symm hne
    · intro n name c r _ hr hne
      rw [naive_input_zero] at hr
      exact absurd hr.symm hne
  | succ f ih =>
    obtain ⟨ihn, ihi⟩ := ih
    constructor
    · intro n c rn hc hrn hne
      rw [evaluate_node_succ]
      cases hnd : g.nodes.lookup n with
      | none =>
        have hrn2 : rn = .panic "invalid NodeId" := by
          rw [← hrn, naive_node_core_succ, hnd]
        refine ⟨c, ?_, ?_, ?_⟩
        · rw [hrn2]
          rfl
        · exact hc
        · intro o v hcontra
          rw [hrn2] at hcontra
          cases hcontra
      | some nd =>
        have harm : naive_node_arm g n nd.user_data.template (naive_input f g n) = rn := by
          rw [← hrn, naive_node_core_succ, hnd]
        obtain ⟨c', hmemo, hpost⟩ :=
          node_arm_L1 (fun name c₀ r hc0 hr hnf => ihi n name c₀ r hc0 hr hnf) hc harm hne
        refine ⟨c', hmemo, ?_, ?_⟩
        · cases rn with
          | ok pr =>
            obtain ⟨o, v⟩ := pr
            have hpost2 : get_output g n (arm_out_name nd.user_data.template) = .ok o ∧
                ∃ c₀, c' = (o, v) :: c₀ ∧ Consistent g c₀ := hpost
            obtain ⟨hgo, c₀, hc', hcons0⟩ := hpost2
            obtain ⟨nd2, hnd2, hout2⟩ := get_output_ok hgo
            rw [hnd] at hnd2
            cases hnd2
            obtain ⟨q, hq, hqn⟩ := wf_output_owner hwf hnd hout2
            have hnaive : naive_output (f + 1 + 1) g o = .ok v := by
              simp [naive_output_succ, naive_output_step, hq, hqn, hrn]
            rw [hc']
            intro o' v' hlk
            rw [lookup_cons] at hlk
            by_cases ho' : (o' == o) = true
            · rw [if_pos ho'] at hlk
              cases hlk
              have heq : o' = o := eq_of_beq ho'
              subst heq
              exact ⟨f + 1 + 1, hnaive⟩
            · rw [if_neg ho'] at hlk
              exact hcons0 o' v' hlk
          | err e => exact hpost
          | panic m => exact hpost
          | fuelOut => exact absurd rfl hne
        · intro o v hrn3
          rw [hrn3] at hpost
          obtain ⟨_, c₀, hc', _⟩ := hpost
          exact ⟨c₀, hc'⟩
    · intro n name c r hc hr hne
      rw [evaluate_input_succ]
      rw [naive_input_succ] at hr
      cases hgi : get_input g n name with
      | err e =>
        have hr2 : r = .err e := by rw [← hr, naive_input_step, hgi]
        refine ⟨c, ?_, hc⟩
        simp [input_step, hgi, hr2]
      | panic m =>
        have hr2 : r = .panic m := by rw [← hr, naive_input_step, hgi]
        refine ⟨c, ?_, hc⟩
        simp [input_step, hgi, hr2]
      | fuelOut => exact absurd hgi (get_input_ne_fuelOut _ _ _)
      | ok iid =>
        cases hcon : g.connection iid with
        | none =>
          cases hip : g.input_params.lookup iid with
          | none =>
            have hr2 : r = .panic "invalid InputId" := by
              rw [← hr]
              simp [naive_input_step, hgi, hcon, hip]
            refine ⟨c, ?_, hc⟩
            simp [input_step, hgi, hcon, hip, hr2]
          | some ip =>
            have hr2 : r = .ok ip.value := by
              rw [← hr]
              simp [naive_input_step, hgi, hcon, hip]
            refine ⟨c, ?_, hc⟩
            simp [input_step, hgi, hcon, hip, hr2]
        | some o =>
          have hro : naive_output f g o = r := by
            rw [← hr]
            simp [naive_input_step, hgi, hcon]
          cases hcl : c.lookup o with
          | some v =>
            obtain ⟨fv, hfv⟩ := hc o v hcl
            have hrv : r = .ok v := naive_output_det hro hne hfv (by simp)
            refine ⟨c, ?_, hc⟩
            simp [input_step, hgi, hcon, hcl, hrv]
          | none =>
            cases f with
            | zero =>
              rw [naive_output_zero] at hro
              exact absurd hro.symm hne
            | succ f0 =>
              have hro0 := hro
              rw [naive_output_succ] at hro
              cases hop : g.output_params.lookup o with
              | none =>
                have hr2 : r = .panic "invalid OutputId" := by
                  rw [← hro]
                  simp [naive_output_step, hop]
                refine ⟨c, ?_, hc⟩
                simp [input_step, hgi, hcon, hcl, hop, hr2]
              | some p =>
                cases hrn0 : naive_node_core f0 g p.node with
                | fuelOut =>
                  have : r = .fuelOut := by
                    rw [← hro]
                    simp [naive_output_step, hop, hrn0]
                  exact absurd this hne
                | ok pr =>
                  obtain ⟨o₁, v⟩ := pr
                  have hlift : naive_node_core (f0 + 1) g p.node = .ok (o₁, v) :=
                    naive_core_mono_le (Nat.le_succ f0) hrn0 (by simp)
                  obtain ⟨c₁, hmemo, hcons1, hshape⟩ :=
                    ihn p.node c (.ok (o₁, v)) hc hlift (by simp)
                  obtain ⟨c₀, hc1eq⟩ := hshape o₁ v rfl
                  by_cases heq : o₁ = o
                  · subst heq
                    have hrv : r = .ok v := by
                      rw [← hro]
                      simp [naive_output_step, hop, hrn0]
                    refine ⟨c₁, ?_, hcons1⟩
                    simp [input_step, hgi, hcon, hcl, hop, hmemo, strip, withOk,
                      hc1eq, lookup_cons_self, hrv]
                  · have hrp : r = .panic "Cache should be populated" := by
                      rw [← hro]
                      simp [naive_output_step, hop, hrn0, heq]
                    cases hl0 : c₀.lookup o with
                    | some u =>
                      have hnu : NaiveOut g o u := by
                        apply hcons1 o u
                        rw [hc1eq, lookup_cons_ne _ _ (fun hh => heq hh.symm)]
                        exact hl0
                      obtain ⟨fu, hfu⟩ := hnu
                      have hcontra := naive_output_det hro0 hne hfu (by simp)
                      rw [hrp] at hcontra
                      cases hcontra
                    | none =>
                      refine ⟨c₁, ?_, hcons1⟩
                      simp [input_step, hgi, hcon, hcl, hop, hmemo, strip, withOk,
                        hc1eq, lookup_cons_ne _ _ (fun hh => heq hh.symm), hl0, hrp]
                | err e =>
                  have hlift : naive_node_core (f0 + 1) g p.node = .err e :=
                    naive_core_mono_le (Nat.le_succ f0) hrn0 (by simp)
                  obtain ⟨c₁, hmemo, hcons1, _⟩ := ihn p.node c (.err e) hc hlift (by simp)
                  have hre : r = .err e := by
                    rw [← hro]
                    simp [naive_output_step, hop, hrn0]
                  refine ⟨c₁, ?_, hcons1⟩
                  simp [input_step, hgi, hcon, hcl, hop, hmemo, strip, withOk, hre]
                | panic m =>
                  have hlift : naive_node_core (f0 + 1) g p.node = .panic m :=
                    naive_core_mono_le (Nat.le_succ f0) hrn0 (by simp)
                  obtain ⟨c₁, hmemo, hcons1, _⟩ := ihn p.node c (.panic m) hc hlift (by simp)
                  have hrm : r = .panic m := by
                    rw [← hro]
                    simp [naive_output_step, hop, hrn0]
                  refine ⟨c₁, ?_, hcons1⟩
                  simp [input_step, hgi, hcon, hcl, hop, hmemo, strip, withOk, hrm]

lemma arm1_L2 {α : Type} {g : MyGraph} {nid : NodeId}
    {evN : Nat → String → EvalResult MyValueType}
    {ev : String → OutputsCache → EvalResult MyValueType × OutputsCache}
    {f1 : MyValueType → Except String α} {n1 out_name : String}
    {F : α → MyValueType} {c c' : OutputsCache} {r : EvalResult MyValueType}
    (hev : ∀ name c₀ r0 c₁, Consistent g c₀ → ev name c₀ = (r0, c₁) → r0 ≠ .fuelOut →
      Consistent g c₁ ∧ ∃ fn, evN fn name = r0)
    (hc : Consistent g c)
    (h : arm1 g nid ev f1 n1 out_name F c = (r, c')) (hne : r ≠ .fuelOut) :
    ∃ fn rn, arm1N g nid (evN fn) f1 n1 out_name F = rn ∧ rn ≠ .fuelOut ∧
      strip rn = r ∧ ArmPost g nid out_name rn c' := by
  rcases h1 : ev n1 c with ⟨r1, c₁⟩
  rw [arm1, h1] at h
  cases r1 with
  | fuelOut =>
    simp [coerce, withOkE, withOk] at h
    exact absurd h.1.symm hne
  | err e =>
    simp [coerce, withOkE, withOk] at h
    obtain ⟨hr, hcc⟩ := h
    subst hr
    subst hcc
    obtain ⟨hcons1, fn1, hN1⟩ := hev n1 c _ _ hc h1 (by simp)
    refine ⟨fn1, .err e, ?_, by simp, rfl, hcons1⟩
    rw [arm1N, hN1]
    rfl
  | panic m =>
    simp [coerce, withOkE, withOk] at h
    obtain ⟨hr, hcc⟩ := h
    subst hr
    subst hcc
    obtain ⟨hcons1, fn1, hN1⟩ := hev n1 c _ _ hc h1 (by simp)
    refine ⟨fn1, .panic m, ?_, by simp, rfl, hcons1⟩
    rw [arm1N, hN1]
    rfl
  | ok v =>
    obtain ⟨hcons1, fn1, hN1⟩ := hev n1 c _ _ hc h1 (by simp)
    cases hf : f1 v with
    | error e =>
      simp [coerce, withOkE, liftE, hf, withOk] at h
      obtain ⟨hr, hcc⟩ := h
      subst hr
      subst hcc
      refine ⟨fn1, .err e, ?_, by simp, rfl, hcons1⟩
      rw [arm1N, hN1]
      simp [withOkE, liftE, hf]
    | ok a =>
      simp only [coerce, withOkE, liftE, hf, withOk] at h
      cases ho : get_output g nid out_name with
      | ok oid =>
        rw [populate_output, ho] at h
        simp at h
        obtain ⟨hr, hcc⟩ := h
        subst hr
        subst hcc
        refine ⟨fn1, .ok (oid, F a), ?_, by simp, rfl, ?_⟩
        · rw [arm1N, hN1]
          simp [withOkE, liftE, hf, naive_populate, ho]
        · exact ⟨ho, c₁, rfl, hcons1⟩
      | err e =>
        rw [populate_output, ho] at h
        simp at h
        obtain ⟨hr, hcc⟩ := h
        subst hr
        subst hcc
        refine ⟨fn1, .err e, ?_, by simp, rfl, hcons1⟩
        rw [arm1N, hN1]
        simp [withOkE, liftE, hf, naive_populate, ho]
      | panic m =>
        rw [populate_output, ho] at h
        simp at h
        obtain ⟨hr, hcc⟩ := h
        subst hr
        subst hcc
        refine ⟨fn1, .panic m, ?_, by simp, rfl, hcons1⟩
        rw [arm1N, hN1]
        simp [withOkE, liftE, hf, naive_populate, ho]
      | fuelOut => exact absurd ho (get_output_ne_fuelOut _ _ _)

lemma arm2_L2 {α β : Type} {g : MyGraph} {nid : NodeId}
    {evN : Nat → String → EvalResult MyValueType}
    {ev : String → OutputsCache → EvalResult MyValueType × OutputsCache}
    {f1 : MyValueType → Except String α} {f2 : MyValueType → Except String β}
    {n1 n2 out_name : String} {F : α → β → MyValueType}
    {c c' : OutputsCache} {r : EvalResult MyValueType}
    (hev : ∀ name c₀ r0 c₁, Consistent g c₀ → ev name c₀ = (r0, c₁) → r0 ≠ .fuelOut →
      Consistent g c₁ ∧ ∃ fn, evN fn name = r0)
    (hmono : ∀ fn fn' name r0, fn ≤ fn' → evN fn name = r0 → r0 ≠ .fuelOut →
      evN fn' name = r0)
    (hc : Consistent g c)
    (h : arm2 g nid ev f1 n1 f2 n2 out_name F c = (r, c')) (hne : r ≠ .fuelOut) :
    ∃ fn rn, arm2N g nid (evN fn) f1 n1 f2 n2 out_name F = rn ∧ rn ≠ .fuelOut ∧
      strip rn = r ∧ ArmPost g nid out_name rn c' := by
  rcases h1 : ev n1 c with ⟨r1, c₁⟩
  rw [arm2, h1] at h
  cases r1 with
  | fuelOut =>
    simp [coerce, withOkE, withOk] at h
    exact absurd h.1.symm hne
  | err e =>
    simp [coerce, withOkE, withOk] at h
    obtain ⟨hr, hcc⟩ := h
    subst hr
    subst hcc
    obtain ⟨hcons1, fn1, hN1⟩ := hev n1 c _ _ hc h1 (by simp)
    refine ⟨fn1, .err e, ?_, by simp, rfl, hcons1⟩
    rw [arm2N, hN1]
    rfl
  | panic m =>
    simp [coerce, withOkE, withOk] at h
    obtain ⟨hr, hcc⟩ := h
    subst hr
    subst hcc
    obtain ⟨hcons1, fn1, hN1⟩ := hev n1 c _ _ hc h1 (by simp)
    refine ⟨fn1, .panic m, ?_, by simp, rfl, hcons1⟩
    rw [arm2N, hN1]
    rfl
  | ok v =>
    obtain ⟨hcons1, fn1, hN1⟩ := hev n1 c _ _ hc h1 (by simp)
    cases hf : f1 v with
    | error e =>
      simp [coerce, withOkE, liftE, hf, withOk] at h
      obtain ⟨hr, hcc⟩ := h
      subst hr
      subst hcc
      refine ⟨fn1, .err e, ?_, by simp, rfl, hcons1⟩
      rw [arm2N, hN1]
      simp [withOkE, liftE, hf]
    | ok a =>
      simp only [coerce, withOkE, liftE, hf, withOk] at h
      rcases h2 : ev n2 c₁ with ⟨r2, c₂⟩
      rw [h2] at h
      cases r2 with
      | fuelOut =>
        simp [withOk] at h
        exact absurd h.1.symm hne
      | err e =>
        simp [withOk] at h
        obtain ⟨hr, hcc⟩ := h
        subst hr
        subst hcc
        obtain ⟨hcons2, fn2, hN2⟩ := hev n2 c₁ _ _ hcons1 h2 (by simp)
        refine ⟨max fn1 fn2, .err e, ?_, by simp, rfl, hcons2⟩
        rw [arm2N, hmono fn1 (max fn1 fn2) n1 _ (Nat.le_max_left _ _) hN1 (by simp),
          hmono fn2 (max fn1 fn2) n2 _ (Nat.le_max_right _ _) hN2 (by simp)]
        simp [withOkE, liftE, hf]
      | panic m =>
        simp [withOk] at h
        obtain ⟨hr, hcc⟩ := h
        subst hr
        subst hcc
        obtain ⟨hcons2, fn2, hN2⟩ := hev n2 c₁ _ _ hcons1 h2 (by simp)
        refine ⟨max fn1 fn2, .panic m, ?_, by simp, rfl, hcons2⟩
        rw [arm2N, hmono fn1 (max fn1 fn2) n1 _ (Nat.le_max_left _ _) hN1 (by simp),
          hmono fn2 (max fn1 fn2) n2 _ (Nat.le_max_right _ _) hN2 (by simp)]
        simp [withOkE, liftE, hf]
      | ok v2 =>
        obtain ⟨hcons2, fn2, hN2⟩ := hev n2 c₁ _ _ hcons1 h2 (by simp)
        have hN1m : evN (max fn1 fn2) n1 = .ok v :=
          hmono fn1 (max fn1 fn2) n1 _ (Nat.le_max_left _ _) hN1 (by simp)
        have hN2m : evN (max fn1 fn2) n2 = .ok v2 :=
          hmono fn2 (max fn1 fn2) n2 _ (Nat.le_max_right _ _) hN2 (by simp)
        simp only [withOk] at h
        cases hf2 : f2 v2 with
        | error e =>
          simp [coerce, withOkE, liftE, hf2, withOk] at h
          obtain ⟨hr, hcc⟩ := h
          subst hr
          subst hcc
          refine ⟨max fn1 fn2, .err e, ?_, by simp, rfl, hcons2⟩
          rw [arm2N, hN1m, hN2m]
          simp [withOkE, liftE, hf, hf2]
        | ok b =>
          simp only [coerce, withOkE, liftE, hf2, withOk] at h
          cases ho : get_output g nid out_name with
          | ok oid =>
            rw [populate_output, ho] at h
            simp at h
            obtain ⟨hr, hcc⟩ := h
            subst hr
            subst hcc
            refine ⟨max fn1 fn2, .ok (oid, F a b), ?_, by simp, rfl, ?_⟩
            · rw [arm2N, hN1m, hN2m]
              simp [withOkE, liftE, hf, hf2, naive_populate, ho]
            · exact ⟨ho, c₂, rfl, hcons2⟩
          | err e =>
            rw [populate_output, ho] at h
            simp at h
            obtain ⟨hr, hcc⟩ := h
            subst hr
            subst hcc
            refine ⟨max fn1 fn2, .err e, ?_, by simp, rfl, hcons2⟩
            rw [arm2N, hN1m, hN2m]
            simp [withOkE, liftE, hf, hf2, naive_populate, ho]
          | panic m =>
            rw [populate_output, ho] at h
            simp at h
            obtain ⟨hr, hcc⟩ := h
            subst hr
            subst hcc
            refine ⟨max fn1 fn2, .panic m, ?_, by simp, rfl, hcons2⟩
            rw [arm2N, hN1m, hN2m]
            simp [withOkE, liftE, hf, hf2, naive_populate, ho]
          | fuelOut => exact absurd ho (get_output_ne_fuelOut _ _ _)

lemma node_arm_L2 {g : MyGraph} {nid : NodeId} {t : MyNodeTemplate}
    {evN : Nat → String → EvalResult MyValueType}
    {ev : String → OutputsCache → EvalResult MyValueType × OutputsCache}
    {c c' : OutputsCache} {r : EvalResult MyValueType}
    (hev : ∀ name c₀ r0 c₁, Consistent g c₀ → ev name c₀ = (r0, c₁) → r0 ≠ .fuelOut →
      Consistent g c₁ ∧ ∃ fn, evN fn name = r0)
    (hmono : ∀ fn fn' name r0, fn ≤ fn' → evN fn name = r0 → r0 ≠ .fuelOut →
      evN fn' name = r0)
    (hc : Consistent g c)
    (h : node_arm g nid t ev c = (r, c')) (hne : r ≠ .fuelOut) :
    ∃ fn rn, naive_node_arm g nid t (evN fn) = rn ∧ rn ≠ .fuelOut ∧
      strip rn = r ∧ ArmPost g nid (arm_out_name t) rn c' := by
  cases t <;>
    first
      | exact arm1_L2 hev hc h hne
      | exact arm2_L2 hev hmono hc h hne

lemma input_step_ok {g : MyGraph} {nid : NodeId} {pname : String}
    {evn : NodeId → OutputsCache → EvalResult MyValueType × OutputsCache}
    {c : OutputsCache} {iid : InputId}
    (hgi : get_input g nid pname = .ok iid) :
    input_step g nid pname evn c =
      match g.connection iid with
      | some other_output_id =>
        match c.lookup other_output_id with
        | some other_value => (.ok other_value, c)
        | none =>
          match g.output_params.lookup other_output_id with
          | none => (.panic "invalid OutputId", c)
          | some p =>
            withOk (evn p.node c) fun _ c =>
              match c.lookup other_output_id with
              | some v => (.ok v, c)
              | none => (.panic "Cache should be populated", c)
      | none =>
        match g.input_params.lookup iid with
        | none => (.panic "invalid InputId", c)
        | some ip => (.ok ip.value, c) := by
  rw [input_step, hgi]

/-- Direction two of the refinement: whatever the memoized evaluator returns
from a consistent cache, the naive evaluator also settles on at some fuel,
and the final cache is again consistent. -/
lemma L2 {g : MyGraph} (hwf : wf g = true) (fuel : Nat) :
    (∀ n c r c', Consistent g c → evaluate_node fuel g n c = (r, c') → r ≠ .fuelOut →
      Consistent g c' ∧ ∃ fn rn, naive_node_core fn g n = rn ∧ rn ≠ .fuelOut ∧
        strip rn = r ∧ (∀ o v, rn = .ok (o, v) → ∃ c₀, c' = (o, v) :: c₀)) ∧
    (∀ n name c r c', Consistent g c → evaluate_input fuel g n name c = (r, c') →
      r ≠ .fuelOut → Consistent g c' ∧ ∃ fn, naive_input fn g n name = r) := by
  induction fuel with
  | zero =>
    constructor
    · intro n c r c' _ h hne
      rw [evaluate_node_zero] at h
      simp at h
      exact absurd h.1.symm hne
    · intro n name c r c' _ h hne
      rw [evaluate_input_zero] at h
      simp at h
      exact absurd h.1.symm hne
  | succ f ih =>
    obtain ⟨ihn, ihi⟩ := ih
    constructor
    · intro n c r c' hc h hne
      rw [evaluate_node_succ] at h
      cases hnd : g.nodes.lookup n with
      | none =>
        rw [hnd] at h
        have h2 : ((EvalResult.panic "invalid NodeId" : EvalResult MyValueType), c) =
            (r, c') := h
        simp at h2
        obtain ⟨hr, hcc⟩ := h2
        subst hr
        subst hcc
        refine ⟨hc, 1, .panic "invalid NodeId", ?_, by simp, rfl, ?_⟩
        · rw [naive_node_core_succ, hnd]
        · intro o v hco
          cases hco
      | some nd =>
        rw [hnd] at h
        have h2 : node_arm g n nd.user_data.template (evaluate_input f g n) c = (r, c') := h
        have hev0 : ∀ name c₀ r0 c₁, Consistent g c₀ →
            evaluate_input f g n name c₀ = (r0, c₁) → r0 ≠ .fuelOut →
            Consistent g c₁ ∧ ∃ fn, naive_input fn g n name = r0 :=
          fun name c₀ r0 c₁ hc0 h0 hn0 => ihi n name c₀ r0 c₁ hc0 h0 hn0
        have hmono0 : ∀ fn fn' name r0, fn ≤ fn' → naive_input fn g n name = r0 →
            r0 ≠ .fuelOut → naive_input fn' g n name = r0 :=
          fun fn fn' name r0 hle h0 hn0 => naive_input_mono_le hle h0 hn0
        obtain ⟨fn, rn, hNarm, hrnne, hstrip, hpost⟩ :=
          node_arm_L2 hev0 hmono0 hc h2 hne
        have hcore : naive_node_core (fn + 1) g n = rn := by
          rw [naive_node_core_succ, hnd]
          exact hNarm
        refine ⟨?_, fn + 1, rn, hcore, hrnne, hstrip, ?_⟩
        · cases rn with
          | ok pr =>
            obtain ⟨o, v⟩ := pr
            have hpost2 : get_output g n (arm_out_name nd.user_data.template) = .ok o ∧
                ∃ c₀, c' = (o, v) :: c₀ ∧ Consistent g c₀ := hpost
            obtain ⟨hgo, c₀, hc'eq, hcons0⟩ := hpost2
            obtain ⟨nd2, hnd2, hout2⟩ := get_output_ok hgo
            rw [hnd] at hnd2
            cases hnd2
            obtain ⟨q, hq, hqn⟩ := wf_output_owner hwf hnd hout2
            have hnaive : naive_output (fn + 1 + 1) g o = .ok v := by
              simp [naive_output_succ, naive_output_step, hq, hqn, hcore]
            rw [hc'eq]
            intro o' v' hlk
            rw [lookup_cons] at hlk
            by_cases ho' : (o' == o) = true
            · rw [if_pos ho'] at hlk
              cases hlk
              have heq2 : o' = o := eq_of_beq ho'
              subst heq2
              exact ⟨fn + 1 + 1, hnaive⟩
            · rw [if_neg ho'] at hlk
              exact hcons0 o' v' hlk
          | err e => exact hpost
          | panic m => exact hpost
          | fuelOut => exact absurd rfl hrnne
        · intro o v hrn3
          rw [hrn3] at hpost
          obtain ⟨_, c₀, hc'eq, _⟩ := hpost
          exact ⟨c₀, hc'eq⟩
    · intro n name c r c' hc h hne
      rw [evaluate_input_succ] at h
      cases hgi : get_input g n name with
      | err e =>
        rw [input_step, hgi] at h
        have h2 : ((EvalResult.err e : EvalResult MyValueType), c) = (r, c') := h
        simp at h2
        obtain ⟨hr, hcc⟩ := h2
        subst hr
        subst hcc
        exact ⟨hc, 1, by simp [naive_input_succ, naive_input_step, hgi]⟩
      | panic m =>
        rw [input_step, hgi] at h
        have h2 : ((EvalResult.panic m : EvalResult MyValueType), c) = (r, c') := h
        simp at h2
        obtain ⟨hr, hcc⟩ := h2
        subst hr
        subst hcc
        exact ⟨hc, 1, by simp [naive_input_succ, naive_input_step, hgi]⟩
      | fuelOut => exact absurd hgi (get_input_ne_fuelOut _ _ _)
      | ok iid =>
        rw [input_step_ok hgi] at h
        cases hcon : g.connection iid with
        | none =>
          cases hip : g.input_params.lookup iid with
          | none =>
            rw [hcon] at h
            have h2 : ((EvalResult.panic "invalid InputId" : EvalResult MyValueType), c) =
                (r, c') := by
              rw [← h]
              simp [hip]
            simp at h2
            obtain ⟨hr, hcc⟩ := h2
            subst hr
            subst hcc
            exact ⟨hc, 1, by simp [naive_input_succ, naive_input_step, hgi, hcon, hip]⟩
          | some ip =>
            rw [hcon] at h
            have h2 : ((EvalResult.ok ip.value : EvalResult MyValueType), c) = (r, c') := by
              rw [← h]
              simp [hip]
            simp at h2
            obtain ⟨hr, hcc⟩ := h2
            subst hr
            subst hcc
            exact ⟨hc, 1, by simp [naive_input_succ, naive_input_step, hgi, hcon, hip]⟩
        | some oid =>
          rw [hcon] at h
          cases hcl : c.lookup oid with
          | some v =>
            have h2 : ((EvalResult.ok v : EvalResult MyValueType), c) = (r, c') := by
              rw [← h]
              simp [hcl]
            simp at h2
            obtain ⟨hr, hcc⟩ := h2
            subst hr
            subst hcc
            obtain ⟨fv, hfv⟩ := hc oid v hcl
            exact ⟨hc, fv + 1, by simp [naive_input_succ, naive_input_step, hgi, hcon, hfv]⟩
          | none =>
            cases hop : g.output_params.lookup oid with
            | none =>
              have h2 : ((EvalResult.panic "invalid OutputId" : EvalResult MyValueType), c) =
                  (r, c') := by
                rw [← h]
                simp [hcl, hop]
              simp at h2
              obtain ⟨hr, hcc⟩ := h2
              subst hr
              subst hcc
              refine ⟨hc, 1 + 1, ?_⟩
              simp [naive_input_succ, naive_input_step, hgi, hcon,
                naive_output_succ, naive_output_step, hop]
            | some p =>
              have h3 : withOk (evaluate_node f g p.node c) (fun _ c =>
                  match c.lookup oid with
                  | some v => (EvalResult.ok v, c)
                  | none => (EvalResult.panic "Cache should be populated", c)) = (r, c') := by
                rw [← h]
                simp [hcl, hop]
              rcases hev : evaluate_node f g p.node c with ⟨r0, c₁⟩
              rw [hev] at h3
              cases r0 with
              | fuelOut =>
                simp [withOk] at h3
                exact absurd h3.1.symm hne
              | err e =>
                simp [withOk] at h3
                obtain ⟨hr, hcc⟩ := h3
                subst hr
                subst hcc
                obtain ⟨hcons1, fn, rn, hcore, hrnne, hstrip, _⟩ :=
                  ihn p.node c _ _ hc hev (by simp)
                have hrn : rn = .err e := by
                  cases rn with
                  | err e2 =>
                    have h4 : (EvalResult.err e2 : EvalResult MyValueType) = .err e := hstrip
                    injection h4 with h5
                    rw [h5]
                  | ok pr =>
                    have h4 : (EvalResult.ok pr.2 : EvalResult MyValueType) = .err e := hstrip
                    cases h4
                  | panic m2 =>
                    have h4 : (EvalResult.panic m2 : EvalResult MyValueType) = .err e := hstrip
                    cases h4
                  | fuelOut => exact absurd rfl hrnne
                subst hrn
                refine ⟨hcons1, fn + 1 + 1, ?_⟩
                simp [naive_input_succ, naive_input_step, hgi, hcon,
                  naive_output_succ, naive_output_step, hop, hcore]
              | panic m =>
                simp [withOk] at h3
                obtain ⟨hr, hcc⟩ := h3
                subst hr
                subst hcc
                obtain ⟨hcons1, fn, rn, hcore, hrnne, hstrip, _⟩ :=
                  ihn p.node c _ _ hc hev (by simp)
                have hrn : rn = .panic m := by
                  cases rn with
                  | panic m2 =>
                    have h4 : (EvalResult.panic m2 : EvalResult MyValueType) = .panic m := hstrip
                    injection h4 with h5
                    rw [h5]
                  | ok pr =>
                    have h4 : (EvalResult.ok pr.2 : EvalResult MyValueType) = .panic m := hstrip
                    cases h4
                  | err e2 =>
                    have h4 : (EvalResult.err e2 : EvalResult MyValueType) = .panic m := hstrip
                    cases h4
                  | fuelOut => exact absurd rfl hrnne
                subst hrn
                refine ⟨hcons1, fn + 1 + 1, ?_⟩
                simp [naive_input_succ, naive_input_step, hgi, hcon,
                  naive_output_succ, naive_output_step, hop, hcore]
              | ok w =>
                simp only [withOk] at h3
                obtain ⟨hcons1, fn, rn, hcore, hrnne, hstrip, hshape⟩ :=
                  ihn p.node c _ _ hc hev (by simp)
                obtain ⟨o₁, w1, hrn⟩ : ∃ o₁ w1, rn = .ok (o₁, w1) := by
                  cases rn with
                  | ok pr => exact ⟨pr.1, pr.2, rfl⟩
                  | err e2 =>
                    have h4 : (EvalResult.err e2 : EvalResult MyValueType) = .ok w := hstrip
                    cases h4
                  | panic m2 =>
                    have h4 : (EvalResult.panic m2 : EvalResult MyValueType) = .ok w := hstrip
                    cases h4
                  | fuelOut => exact absurd rfl hrnne
                subst hrn
                have hw : w1 = w := by
                  have h4 : (EvalResult.ok w1 : EvalResult MyValueType) = .ok w := hstrip
                  injection h4 with h5
                subst hw
                obtain ⟨c₀, hc1eq⟩ := hshape o₁ w1 rfl
                cases hlk : c₁.lookup oid with
                | some u =>
                  rw [hlk] at h3
                  simp at h3
                  obtain ⟨hr, hcc⟩ := h3
                  subst hr
                  subst hcc
                  obtain ⟨fu, hfu⟩ := hcons1 oid u hlk
                  exact ⟨hcons1, fu + 1,
                    by simp [naive_input_succ, naive_input_step, hgi, hcon, hfu]⟩
                | none =>
                  rw [hlk] at h3
                  simp at h3
                  obtain ⟨hr, hcc⟩ := h3
                  subst hr
                  subst hcc
                  have hne1 : o₁ ≠ oid := by
                    intro hcontra
                    subst hcontra
                    rw [hc1eq, lookup_cons_self] at hlk
                    cases hlk
                  refine ⟨hcons1, fn + 1 + 1, ?_⟩
                  simp [naive_input_succ, naive_input_step, hgi, hcon,
                    naive_output_succ, naive_output_step, hop, hcore, hne1]

/-! Port construction facts: a node's typed ports are determined by its
template. -/

lemma fresh_unpack {g : MyGraph} (hf : fresh_chk g = true) :
    (∀ p ∈ g.input_params, p.1 < g.next_id) ∧
    (∀ p ∈ g.output_params, p.1 < g.next_id) ∧
    (∀ p ∈ g.nodes, (∀ e ∈ p.2.inputs, e.2 < g.next_id) ∧
      (∀ e ∈ p.2.outputs, e.2 < g.next_id)) := by
  rw [fresh_chk] at hf
  simp only [Bool.and_eq_true, List.all_eq_true, decide_eq_true_eq] at hf
  exact ⟨hf.1.1, hf.1.2, hf.2⟩

lemma fresh_pack {g : MyGraph}
    (h1 : ∀ p ∈ g.input_params, p.1 < g.next_id)
    (h2 : ∀ p ∈ g.output_params, p.1 < g.next_id)
    (h3 : ∀ p ∈ g.nodes, (∀ e ∈ p.2.inputs, e.2 < g.next_id) ∧
      (∀ e ∈ p.2.outputs, e.2 < g.next_id)) : fresh_chk g = true := by
  rw [fresh_chk]
  simp only [Bool.and_eq_true, List.all_eq_true, decide_eq_true_eq]
  exact ⟨⟨h1, h2⟩, h3⟩

lemma map_typ_congr {β : Type} {params params' : List (Nat × β)} (F : β → MyDataType)
    (l : List (String × Nat))
    (h : ∀ e ∈ l, params'.lookup e.2 = params.lookup e.2) :
    (l.map fun p => (p.1, (params'.lookup p.2).map F)) =
    (l.map fun p => (p.1, (params.lookup p.2).map F)) := by
  induction l with
  | nil => rfl
  | cons x t ih =>
    rw [List.map_cons, List.map_cons, h x (List.mem_cons_self x t),
      ih fun e he => h e (List.mem_cons_of_mem x he)]

lemma add_input_param_spec {g : MyGraph} {node_id : NodeId} {nd : GraphNode}
    (name : String) (typ : MyDataType) (value : MyValueType) (kind : InputParamKind)
    (hf : fresh_chk g = true) (hnd : g.nodes.lookup node_id = some nd) :
    (add_input_param g node_id name typ value kind).nodes.lookup node_id =
      some { nd with inputs := nd.inputs ++ [(name, g.next_id)] } ∧
    fresh_chk (add_input_param g node_id name typ value kind) = true ∧
    input_types (add_input_param g node_id name typ value kind)
        { nd with inputs := nd.inputs ++ [(name, g.next_id)] } =
      input_types g nd ++ [(name, some typ)] ∧
    (∀ nd0, output_types (add_input_param g node_id name typ value kind) nd0 =
      output_types g nd0) := by
  obtain ⟨hfi, hfo, hfn⟩ := fresh_unpack hf
  have hbody : add_input_param g node_id name typ value kind =
      { g with
        nodes := g.nodes.map fun p =>
          if p.1 = node_id then (p.1, { p.2 with inputs := p.2.inputs ++ [(name, g.next_id)] })
          else p,
        input_params := g.input_params ++ [(g.next_id, ⟨node_id, typ, value, kind⟩)],
        next_id := g.next_id + 1 } := by
    rw [add_input_param, hnd]
  have hold : ∀ i : InputId, i < g.next_id →
      (g.input_params ++ [(g.next_id, (⟨node_id, typ, value, kind⟩ : InputParamData))]).lookup i =
        g.input_params.lookup i := by
    intro i hi
    exact lookup_append_small hi
  have hnew : (g.input_params ++
      [(g.next_id, (⟨node_id, typ, value, kind⟩ : InputParamData))]).lookup g.next_id =
      some ⟨node_id, typ, value, kind⟩ := by
    rw [lookup_append_right (lookup_none_of_keys_lt hfi), lookup_cons_self]
  refine ⟨?_, ?_, ?_, ?_⟩
  · rw [hbody]
    exact lookup_update
      (fun b => { b with inputs := b.inputs ++ [(name, g.next_id)] }) hnd
  · rw [hbody]
    apply fresh_pack
    · intro p hp
      simp only [List.mem_append, List.mem_singleton] at hp
      cases hp with
      | inl hp => exact Nat.lt_succ_of_lt (hfi p hp)
      | inr hp => rw [hp]; exact Nat.lt_succ_self _
    · intro p hp
      exact Nat.lt_succ_of_lt (hfo p hp)
    · intro p hp
      simp only [List.mem_map] at hp
      obtain ⟨q, hq, hpq⟩ := hp
      by_cases hqn : q.1 = node_id
      · rw [if_pos hqn] at hpq
        subst hpq
        constructor
        · intro e he
          simp only [List.mem_append, List.mem_singleton] at he
          cases he with
          | inl he => exact Nat.lt_succ_of_lt ((hfn q hq).1 e he)
          | inr he => rw [he]; exact Nat.lt_succ_self _
        · intro e he
          exact Nat.lt_succ_of_lt ((hfn q hq).2 e he)
      · rw [if_neg hqn] at hpq
        subst hpq
        exact ⟨fun e he => Nat.lt_succ_of_lt ((hfn q hq).1 e he),
          fun e he => Nat.lt_succ_of_lt ((hfn q hq).2 e he)⟩
  · have hmem := (hfn (node_id, nd) (lookup_mem hnd)).1
    rw [hbody, input_types, input_types]
    simp only [List.map_append, List.map_cons, List.map_nil, hnew, Option.map_some']
    rw [map_typ_congr InputParamData.typ nd.inputs fun e he => hold e.2 (hmem e he)]
  · intro nd0
    rw [hbody, output_types, output_types]

lemma add_output_param_spec {g : MyGraph} {node_id : NodeId} {nd : GraphNode}
    (name : String) (typ : MyDataType)
    (hf : fresh_chk g = true) (hnd : g.nodes.lookup node_id = some nd) :
    (add_output_param g node_id name typ).nodes.lookup node_id =
      some { nd with outputs := nd.outputs ++ [(name, g.next_id)] } ∧
    fresh_chk (add_output_param g node_id name typ) = true ∧
    output_types (add_output_param g node_id name typ)
        { nd with outputs := nd.outputs ++ [(name, g.next_id)] } =
      output_types g nd ++ [(name, some typ)] ∧
    (∀ nd0, input_types (add_output_param g node_id name typ) nd0 =
      input_types g nd0) := by
  obtain ⟨hfi, hfo, hfn⟩ := fresh_unpack hf
  have hbody : add_output_param g node_id name typ =
      { g with
        nodes := g.nodes.map fun p =>
          if p.1 = node_id then (p.1, { p.2 with outputs := p.2.outputs ++ [(name, g.next_id)] })
          else p,
        output_params := g.output_params ++ [(g.next_id, ⟨node_id, typ⟩)],
        next_id := g.next_id + 1 } := by
    rw [add_output_param, hnd]
  have hold : ∀ i : OutputId, i < g.next_id →
      (g.output_params ++ [(g.next_id, (⟨node_id, typ⟩ : OutputParamData))]).lookup i =
        g.output_params.lookup i := by
    intro i hi
    exact lookup_append_small hi
  have hnew : (g.output_params ++
      [(g.next_id, (⟨node_id, typ⟩ : OutputParamData))]).lookup g.next_id =
      some ⟨node_id, typ⟩ := by
    rw [lookup_append_right (lookup_none_of_keys_lt hfo), lookup_cons_self]
  refine ⟨?_, ?_, ?_, ?_⟩
  · rw [hbody]
    exact lookup_update
      (fun b => { b with outputs := b.outputs ++ [(name, g.next_id)] }) hnd
  · rw [hbody]
    apply fresh_pack
    · intro p hp
      exact Nat.lt_succ_of_lt (hfi p hp)
    · intro p hp
      simp only [List.mem_append, List.mem_singleton] at hp
      cases hp with
      | inl hp => exact Nat.lt_succ_of_lt (hfo p hp)
      | inr hp => rw [hp]; exact Nat.lt_succ_self _
    · intro p hp
      simp only [List.mem_map] at hp
      obtain ⟨q, hq, hpq⟩ := hp
      by_cases hqn : q.1 = node_id
      · rw [if_pos hqn] at hpq
        subst hpq
        constructor
        · intro e he
          exact Nat.lt_succ_of_lt ((hfn q hq).1 e he)
        · intro e he
          simp only [List.mem_append, List.mem_singleton] at he
          cases he with
          | inl he => exact Nat.lt_succ_of_lt ((hfn q hq).2 e he)
          | inr he => rw [he]; exact Nat.lt_succ_self _
      · rw [if_neg hqn] at hpq
        subst hpq
        exact ⟨fun e he => Nat.lt_succ_of_lt ((hfn q hq).1 e he),
          fun e he => Nat.lt_succ_of_lt ((hfn q hq).2 e he)⟩
  · have hmem := (hfn (node_id, nd) (lookup_mem hnd)).2
    rw [hbody, output_types, output_types]
    simp only [List.map_append, List.map_cons, List.map_nil, hnew, Option.map_some']
    rw [map_typ_congr OutputParamData.typ nd.outputs fun e he => hold e.2 (hmem e he)]
  · intro nd0
    rw [hbody, input_types, input_types]

lemma apply_adds_spec (s : List AddOp) :
    ∀ (g : MyGraph) (node_id : NodeId) (nd : GraphNode),
    fresh_chk g = true → g.nodes.lookup node_id = some nd →
    ∃ nd', (s.foldl (apply_add node_id) g).nodes.lookup node_id = some nd' ∧
      fresh_chk (s.foldl (apply_add node_id) g) = true ∧
      input_types (s.foldl (apply_add node_id) g) nd' =
        input_types g nd ++ ops_input_sig s ∧
      output_types (s.foldl (apply_add node_id) g) nd' =
        output_types g nd ++ ops_output_sig s := by
  induction s with
  | nil =>
    intro g node_id nd hf hnd
    exact ⟨nd, hnd, hf, by simp [ops_input_sig], by simp [ops_output_sig]⟩
  | cons op t iht =>
    intro g node_id nd hf hnd
    cases op with
    | addIn name typ value kind =>
      obtain ⟨hA, hB, hC, hD⟩ := add_input_param_spec name typ value kind hf hnd
      obtain ⟨nd', h1, h2, h3, h4⟩ := iht (add_input_param g node_id name typ value kind)
        node_id _ hB hA
      refine ⟨nd', h1, h2, ?_, ?_⟩
      · show input_types
            (t.foldl (apply_add node_id) (add_input_param g node_id name typ value kind)) nd' = _
        rw [h3, hC]
        simp [ops_input_sig]
      · show output_types
            (t.foldl (apply_add node_id) (add_input_param g node_id name typ value kind)) nd' = _
        rw [h4, hD]
        simp [ops_output_sig, output_types]
    | addOut name typ =>
      obtain ⟨hA, hB, hC, hD⟩ := add_output_param_spec name typ hf hnd
      obtain ⟨nd', h1, h2, h3, h4⟩ := iht (add_output_param g node_id name typ)
        node_id _ hB hA
      refine ⟨nd', h1, h2, ?_, ?_⟩
      · show input_types
            (t.foldl (apply_add node_id) (add_output_param g node_id name typ)) nd' = _
        rw [h3, hD]
        simp [ops_input_sig, input_types]
      · show output_types
            (t.foldl (apply_add node_id) (add_output_param g node_id name typ)) nd' = _
        rw [h4, hC]
        simp [ops_output_sig]

/-- Every error the memoized evaluator returns at any fuel is a port-lookup
error or a coercion error (and is propagated unchanged by the callers). -/
lemma err_shape_all (fuel : Nat) :
    (∀ g n c e c', evaluate_node fuel g n c = (.err e, c') → ErrShape e) ∧
    (∀ g n name c e c', evaluate_input fuel g n name c = (.err e, c') → ErrShape e) := by
  induction fuel with
  | zero =>
    constructor
    · intro g n c e c' h
      rw [evaluate_node_zero] at h
      cases h
    · intro g n name c e c' h
      rw [evaluate_input_zero] at h
      cases h
  | succ f ih =>
    constructor
    · intro g n c e c' h
      rw [evaluate_node_succ] at h
      cases hl : g.nodes.lookup n <;> rw [hl] at h
      · cases h
      · exact node_arm_err_shape (fun name c₀ c₁ h1 => ih.2 g n name c₀ e c₁ h1) h
    · intro g n name c e c' h
      rw [evaluate_input_succ] at h
      exact input_step_err_shape (fun m c₀ c₁ h1 => ih.1 g m c₀ e c₁ h1) h

/-! Remaining helper facts and concrete graphs for the claims. -/

lemma consistent_nil (g : MyGraph) : Consistent g [] := by
  intro o v h
  simp at h

/-- On the self-connected MakeScalar node, evaluation consumes any amount of
fuel without producing a result: the cycle is never cut because the cache is
only written after a node finishes. -/
lemma cyc_fuelOut : ∀ fuel, evaluate_node fuel g_cyc 0 [] = (.fuelOut, []) ∧
    evaluate_input fuel g_cyc 0 "value" [] = (.fuelOut, []) := by
  intro fuel
  induction fuel with
  | zero => exact ⟨evaluate_node_zero _ _ _, evaluate_input_zero _ _ _ _⟩
  | succ f ih =>
    constructor
    · rw [evaluate_node_succ]
      have hnd : g_cyc.nodes.lookup 0 =
          some ⟨⟨.MakeScalar⟩, [("value", 0)], [("out", 1)]⟩ := rfl
      rw [hnd]
      show arm1 g_cyc 0 (evaluate_input f g_cyc 0) MyValueType.try_to_scalar "value" "out"
        (fun v => .Scalar v) [] = (.fuelOut, [])
      rw [arm1, ih.2]
      rfl
    · rw [evaluate_input_succ]
      show withOk (evaluate_node f g_cyc 0 []) (fun _ c =>
        match c.lookup 1 with
        | some v => (EvalResult.ok v, c)
        | none => (EvalResult.panic "Cache should be populated", c)) = (.fuelOut, [])
      rw [ih.1]
      rfl

/-- A graph whose AddScalar node draws its input A from an upstream
CreateMonoCamera node; the upstream node errs in the catch-all arm. -/
def g_prop : MyGraph :=
  { nodes :=
      [(0, ⟨⟨.CreateMonoCamera⟩, [("inputConfig", 0), ("inputControl", 1)], [("out", 2)]⟩),
       (1, ⟨⟨.AddScalar⟩, [("A", 3), ("B", 4)], [("out", 5)]⟩)],
    input_params :=
      [(0, ⟨0, .Queue .MonoCamera, .Queue .MonoCamera, .ConnectionOrConstant⟩),
       (1, ⟨0, .Queue .MonoCamera, .Queue .MonoCamera, .ConnectionOrConstant⟩),
       (3, ⟨1, .Scalar, .Scalar 0, .ConnectionOrConstant⟩),
       (4, ⟨1, .Scalar, .Scalar 0, .ConnectionOrConstant⟩)],
    output_params := [(2, ⟨0, .Queue .MonoCamera⟩), (5, ⟨1, .Scalar⟩)],
    connections := [(3, 2)],
    next_id := 6 }

/-- A VectorTimesScalar node with constants 3 and (1, 2). -/
def g_vts : MyGraph :=
  { nodes := [(0, ⟨⟨.VectorTimesScalar⟩, [("scalar", 0), ("vector", 1)], [("out", 2)]⟩)],
    input_params :=
      [(0, ⟨0, .Scalar, .Scalar 3, .ConnectionOrConstant⟩),
       (1, ⟨0, .Vec2, .Vec2 (1, 2), .ConnectionOrConstant⟩)],
    output_params := [(2, ⟨0, .Vec2⟩)],
    connections := [],
    next_id := 3 }

/-- A node whose template has no explicit evaluator arm but which does carry
a scalar input named value, exercising the catch-all arm's success path. -/
def g_misc : MyGraph :=
  { nodes := [(0, ⟨⟨.CreateIMU⟩, [("value", 0)], [("out", 1)]⟩)],
    input_params := [(0, ⟨0, .Scalar, .Scalar 9, .ConnectionOrConstant⟩)],
    output_params := [(1, ⟨0, .Scalar⟩)],
    connections := [],
    next_id := 2 }

/-- A fresh graph holding a single empty AddScalar node, before build_node. -/
def gF : MyGraph :=
  { nodes := [(0, ⟨⟨.AddScalar⟩, [], []⟩)], input_params := [], output_params := [],
    connections := [], next_id := 0 }

/-! The claims. -/

/-- Claim C1: memoization does not change results.  For every well-formed
graph and target node, the memoized evaluate_node started with an empty
outputs cache terminates with a given result exactly when the naive,
cacheless reference evaluator (which re-evaluates every upstream output on
demand) terminates with that same result: the same Ok value, an error exactly
when the reference errs, and likewise for the panics of the shared
cache-expect. -/
theorem C1_memoization_refines_naive (g : MyGraph) (n : NodeId)
    (r : EvalResult MyValueType) (hwf : wf g = true) :
    MemoEval g n r ↔ NaiveEval g n r := by
  constructor
  · rintro ⟨fuel, c', hev, hne⟩
    obtain ⟨_, fn, rn, hcore, hrnne, hstrip, _⟩ :=
      ((L2 hwf fuel).1) n [] r c' (consistent_nil g) hev hne
    refine ⟨fn, ?_, hne⟩
    rw [naive_node, hcore]
    exact hstrip
  · rintro ⟨fuel, hnn, hne⟩
    rw [naive_node] at hnn
    have hrnne : naive_node_core fuel g n ≠ .fuelOut := by
      intro hcon
      rw [hcon] at hnn
      exact hne (hnn.symm)
    obtain ⟨c', hev, _, _⟩ :=
      (L1 hwf fuel).1 n [] (naive_node_core fuel g n) (consistent_nil g) rfl hrnne
    rw [hnn] at hev
    exact ⟨fuel, c', hev, hne⟩

/-- Witness for C1 on a concrete two-node graph: AddScalar fed by MakeScalar
evaluates to 7 under both evaluators. -/
theorem C1_memoization_refines_naive_witness :
    wf gW = true ∧ (MemoEval gW 1 (.ok (.Scalar 7)) ↔ NaiveEval gW 1 (.ok (.Scalar 7))) :=
  ⟨by decide, C1_memoization_refines_naive gW 1 (.ok (.Scalar 7)) (by decide)⟩

/-- Counterexample to claim C2 as stated: on a graph that is cyclic by
mistake (a MakeScalar node whose value input is wired to its own out output)
evaluate_node does not terminate: no amount of fuel yields a result, because
the cache is only populated after a node's arm finishes, so the recursion
never meets a cache hit.  (In the Rust source this is an unbounded recursion
that overflows the stack rather than returning Ok or Err.) -/
theorem C2_cex_cyclic_graph_diverges : ¬ Terminates g_cyc 0 := by
  rintro ⟨fuel, hf⟩
  apply hf
  rw [(cyc_fuelOut fuel).1]

/-- Claim C2, amended: on every graph admitting a height function that
strictly decreases along input-to-upstream-output dependency edges (in
particular every acyclic graph), evaluate_node terminates once the fuel
exceeds twice the target's height, from any starting cache; termination on
arbitrary cyclic graphs is refuted by the counterexample. -/
theorem C2_terminates_on_acyclic (g : MyGraph) (hgt : NodeId → Nat) (n : NodeId)
    (c : OutputsCache) (fuel : Nat) (hdec : decreasing_chk g hgt = true)
    (hfuel : 2 * hgt n + 2 ≤ fuel) : (evaluate_node fuel g n c).1 ≠ .fuelOut :=
  (eval_terminates hdec fuel).1 n c hfuel

/-- Witness for the amended C2 on the concrete two-node graph with the
identity height function. -/
theorem C2_terminates_on_acyclic_witness :
    decreasing_chk gW (fun k => k) = true ∧ (evaluate_node 4 gW 1 []).1 ≠ .fuelOut :=
  ⟨by decide, C2_terminates_on_acyclic gW (fun k => k) 1 [] 4 (by decide) (by decide)⟩

/-- Counterexample to claim C3 as stated: a freshly built CreateColorCamera
node has five outputs (raw, isp, video, still, preview) and two inputs
(inputConfig, inputControl), yet a successful evaluation stores a value only
for the video output: the raw output is absent from the final cache (and only
inputConfig was resolved). -/
theorem C3_cex_color_camera_partial_cache :
    g_cam.nodes.lookup 0 = some
      ⟨⟨.CreateColorCamera⟩,
        [("inputConfig", 0), ("inputControl", 1)],
        [("raw", 2), ("isp", 3), ("video", 4), ("still", 5), ("preview", 6)]⟩ ∧
    evaluate_node 3 g_cam 0 [] = (.ok (.Queue .ColorCamera), [(4, .Queue .ColorCamera)]) ∧
    ([(4, MyValueType.Queue .ColorCamera)] : OutputsCache).lookup 2 = none := by
  refine ⟨by decide, by decide, by decide⟩

/-- Claim C3, amended: whenever evaluate_node returns Ok it stores a value
for exactly one of the node's outputs, the designated output of its
template's match arm (out for the arithmetic arms, video for
CreateColorCamera, output for CreateXLinkOut), pushed at the head of the
cache with the returned value; the other outputs of the node are not
computed, and only the inputs requested by the arm are resolved. -/
theorem C3_single_designated_output (fuel : Nat) (g : MyGraph) (n : NodeId)
    (c c' : OutputsCache) (v : MyValueType)
    (h : evaluate_node fuel g n c = (.ok v, c')) :
    ∃ nd oid c₀, g.nodes.lookup n = some nd ∧
      get_output g n (arm_out_name nd.user_data.template) = .ok oid ∧
      c' = (oid, v) :: c₀ := by
  cases fuel with
  | zero =>
    rw [evaluate_node_zero] at h
    simp at h
  | succ f =>
    rw [evaluate_node_succ] at h
    cases hnd : g.nodes.lookup n with
    | none =>
      rw [hnd] at h
      have h2 : ((EvalResult.panic "invalid NodeId" : EvalResult MyValueType), c) =
          (.ok v, c') := h
      simp at h2
    | some nd =>
      rw [hnd] at h
      have h2 : node_arm g n nd.user_data.template (evaluate_input f g n) c = (.ok v, c') := h
      obtain ⟨oid, c₀, hgo, hc'⟩ := node_arm_ok_inv h2
      exact ⟨nd, oid, c₀, rfl, hgo, hc'⟩

/-- Witness for the amended C3 on the concrete two-node graph. -/
theorem C3_single_designated_output_witness :
    evaluate_node 4 gW 1 [] = (.ok (.Scalar 7), [(4, .Scalar 7), (1, .Scalar 2)]) ∧
    ∃ nd oid c₀, gW.nodes.lookup 1 = some nd ∧
      get_output gW 1 (arm_out_name nd.user_data.template) = .ok oid ∧
      ([(4, MyValueType.Scalar 7), (1, MyValueType.Scalar 2)] : OutputsCache) =
        (oid, .Scalar 7) :: c₀ :=
  ⟨by decide, C3_single_designated_output 4 gW 1 [] _ (.Scalar 7) (by decide)⟩

/-- Claim C4: error propagation.  (i) Requesting a port name a node does not
have yields the NoParameterNamed error for that name; (ii) an error from the
recursive evaluation of an upstream node propagates unchanged (with its
cache) through evaluate_input; (iii) a failed coercion inside an arm (shown
for AddScalar's first operand) aborts the node with the Invalid-cast error
before the remaining inputs are touched; and (iv) every error the evaluator
can produce is of one of these shapes: a NoParameterNamed message or an
Invalid-cast message to vec2, scalar or node. -/
theorem C4_error_propagation :
    (∀ g n nd (name : String) (fuel : Nat) (c : OutputsCache),
      g.nodes.lookup n = some nd → nd.inputs.lookup name = none →
      evaluate_input (fuel + 1) g n name c = (.err (no_param_msg name), c)) ∧
    (∀ g n (name : String) (fuel : Nat) (c : OutputsCache) iid oid p (e : String) c₁,
      get_input g n name = .ok iid → g.connection iid = some oid →
      c.lookup oid = none → g.output_params.lookup oid = some p →
      evaluate_node fuel g p.node c = (.err e, c₁) →
      evaluate_input (fuel + 1) g n name c = (.err e, c₁)) ∧
    (∀ g n nd (fuel : Nat) (c : OutputsCache) v (e : String) c₁,
      g.nodes.lookup n = some nd → nd.user_data.template = .AddScalar →
      evaluate_input fuel g n "A" c = (.ok v, c₁) →
      MyValueType.try_to_scalar v = .error e →
      evaluate_node (fuel + 1) g n c = (.err e, c₁)) ∧
    (∀ (fuel : Nat) g n (c : OutputsCache) (e : String) c',
      evaluate_node fuel g n c = (.err e, c') → ErrShape e) := by
  refine ⟨?_, ?_, ?_, ?_⟩
  · intro g n nd name fuel c hnd hin
    have hgi : get_input g n name = .err (no_param_msg name) := by
      simp [get_input, hnd, hin]
    rw [evaluate_input_succ]
    simp [input_step, hgi]
  · intro g n name fuel c iid oid p e c₁ hgi hcon hcm hop hev
    rw [evaluate_input_succ, input_step_ok hgi]
    simp only [hcon, hcm, hop]
    rw [hev]
    rfl
  · intro g n nd fuel c v e c₁ hnd ht hA hcast
    rw [evaluate_node_succ]
    simp only [hnd]
    rw [ht]
    exact arm2_coerce1_err hA hcast
  · intro fuel g n c e c' h
    exact (err_shape_all fuel).1 g n c e c' h

/-- Witness for C4, exercising the four parts on concrete graphs: a missing
port name on the AddScalar node, the propagated catch-all error of an
upstream CreateMonoCamera node, the Invalid-cast error of a vector constant
fed to AddScalar, and the shape of a produced error. -/
theorem C4_error_propagation_witness :
    evaluate_input 1 gW 1 "zzz" [] = (.err (no_param_msg "zzz"), []) ∧
    evaluate_input 3 g_prop 1 "A" [] = (.err (no_param_msg "value"), []) ∧
    evaluate_node 2 g_bad 0 [] =
      (.err ("Invalid cast from " ++ (MyValueType.Vec2 (1, 2)).debug_str ++ " to scalar"),
        []) ∧
    ErrShape (no_param_msg "value") := by
  refine ⟨?_, ?_, ?_, ?_⟩
  · exact C4_error_propagation.1 gW 1 ⟨⟨.AddScalar⟩, [("A", 2), ("B", 3)], [("out", 4)]⟩
      "zzz" 0 [] (by decide) (by decide)
  · exact C4_error_propagation.2.1 g_prop 1 "A" 2 [] 3 2 ⟨0, .Queue .MonoCamera⟩
      (no_param_msg "value") [] (by decide) (by decide) (by decide) (by decide) (by decide)
  · exact C4_error_propagation.2.2.1 g_bad 0 ⟨⟨.AddScalar⟩, [("A", 0), ("B", 1)], [("out", 2)]⟩
      1 [] (.Vec2 (1, 2)) _ [] (by decide) (by decide) (by decide) rfl
  · exact C4_error_propagation.2.2.2 2 g_prop 0 [] (no_param_msg "value") [] (by decide)

/-- Claim C5: input resolution.  With the input port resolved to an id:
(i) when the input has no connection, its inline constant value is returned
and the cache is untouched; (ii) when it is connected to an upstream output,
a successful resolution always returns exactly the value the final cache
holds for that output (a cache hit returns the cached value, a miss evaluates
the upstream node and reads the freshly populated entry). -/
theorem C5_input_resolution (g : MyGraph) (n : NodeId) (name : String) (fuel : Nat)
    (c : OutputsCache) (iid : InputId) (hgi : get_input g n name = .ok iid) :
    (∀ ip, g.connection iid = none → g.input_params.lookup iid = some ip →
      evaluate_input (fuel + 1) g n name c = (.ok ip.value, c)) ∧
    (∀ oid v c', g.connection iid = some oid →
      evaluate_input (fuel + 1) g n name c = (.ok v, c') → c'.lookup oid = some v) := by
  constructor
  · intro ip hcon hip
    rw [evaluate_input_succ, input_step_ok hgi]
    simp only [hcon, hip]
  · intro oid v c' hcon h
    rw [evaluate_input_succ, input_step_ok hgi] at h
    rw [hcon] at h
    have h1 : (match c.lookup oid with
        | some other_value => ((EvalResult.ok other_value : EvalResult MyValueType), c)
        | none =>
          match g.output_params.lookup oid with
          | none => (.panic "invalid OutputId", c)
          | some p =>
            withOk (evaluate_node fuel g p.node c) fun _ c2 =>
              match c2.lookup oid with
              | some w => (.ok w, c2)
              | none => (.panic "Cache should be populated", c2)) = (.ok v, c') := h
    cases hcm : c.lookup oid with
    | some w =>
      rw [hcm] at h1
      have h2 : ((EvalResult.ok w : EvalResult MyValueType), c) = (.ok v, c') := h1
      injection h2 with h3 h4
      injection h3 with h5
      rw [← h4, ← h5]
      exact hcm
    | none =>
      rw [hcm] at h1
      have h3 : (match g.output_params.lookup oid with
          | none => ((EvalResult.panic "invalid OutputId" : EvalResult MyValueType), c)
          | some p =>
            withOk (evaluate_node fuel g p.node c) fun _ c2 =>
              match c2.lookup oid with
              | some w => (.ok w, c2)
              | none => (.panic "Cache should be populated", c2)) = (.ok v, c') := h1
      cases hop : g.output_params.lookup oid with
      | none =>
        rw [hop] at h3
        have h4 : ((EvalResult.panic "invalid OutputId" : EvalResult MyValueType), c) =
            (.ok v, c') := h3
        simp at h4
      | some p =>
        rw [hop] at h3
        have h4 : withOk (evaluate_node fuel g p.node c) (fun _ c2 =>
            match c2.lookup oid with
            | some w => ((EvalResult.ok w : EvalResult MyValueType), c2)
            | none => (.panic "Cache should be populated", c2)) = (.ok v, c') := h3
        rcases hev : evaluate_node fuel g p.node c with ⟨r, c₁⟩
        rw [hev] at h4
        cases r with
        | ok w =>
          have h5 : (match c₁.lookup oid with
              | some u => ((EvalResult.ok u : EvalResult MyValueType), c₁)
              | none => (.panic "Cache should be populated", c₁)) = (.ok v, c') := h4
          cases hcm2 : c₁.lookup oid with
          | some u =>
            rw [hcm2] at h5
            have h6 : ((EvalResult.ok u : EvalResult MyValueType), c₁) = (.ok v, c') := h5
            injection h6 with h7 h8
            injection h7 with h9
            rw [← h8, ← h9]
            exact hcm2
          | none =>
            rw [hcm2] at h5
            have h6 : ((EvalResult.panic "Cache should be populated" :
                EvalResult MyValueType), c₁) = (.ok v, c') := h5
            simp at h6
        | err e =>
          have h5 : ((EvalResult.err e : EvalResult MyValueType), c₁) = (.ok v, c') := h4
          simp at h5
        | panic m =>
          have h5 : ((EvalResult.panic m : EvalResult MyValueType), c₁) = (.ok v, c') := h4
          simp at h5
        | fuelOut =>
          have h5 : ((EvalResult.fuelOut : EvalResult MyValueType), c₁) = (.ok v, c') := h4
          simp at h5

/-- Witness for C5 on the two-node graph: the unconnected input B returns its
constant 5 without touching the cache; the connected input A returns 2,
exactly the value the final cache holds for output 1. -/
theorem C5_input_resolution_witness :
    evaluate_input 1 gW 1 "B" [] = (.ok (.Scalar 5), []) ∧
    evaluate_input 3 gW 1 "A" [] = (.ok (.Scalar 2), [(1, .Scalar 2)]) ∧
    ([(1, MyValueType.Scalar 2)] : OutputsCache).lookup 1 = some (.Scalar 2) :=
  ⟨(C5_input_resolution gW 1 "B" 0 [] 3 (by decide)).1
      ⟨1, .Scalar, .Scalar 5, .ConnectionOrConstant⟩ (by decide) (by decide),
    by decide,
    (C5_input_resolution gW 1 "A" 2 [] 2 (by decide)).2 1 (.Scalar 2)
      [(1, .Scalar 2)] (by decide) (by decide)⟩

/-- Claim C6: the match arms of evaluate_node compute exactly the documented
operations.  Once the arm's inputs resolve and coerce successfully and the
designated output exists, AddScalar produces the scalar sum of A and B,
SubtractScalar their difference, VectorTimesScalar the vector scaled
componentwise, AddVector and SubtractVector the componentwise sum and
difference of v1 and v2, MakeVector the vector of x and y, MakeScalar its
value unchanged; these seven plus the two depthai passthrough arms
(CreateColorCamera copying inputConfig's queue to video, CreateXLinkOut
copying in's queue to output) are the only explicit arms, every other
template falling into the catch-all that copies the scalar value to out; in
every case the result is also pushed onto the cache for the designated
output. -/
theorem C6_arm_semantics :
    (∀ g n nd (fuel : Nat) (c c₁ c₂ : OutputsCache) (a b : Int) oid,
      g.nodes.lookup n = some nd → nd.user_data.template = .AddScalar →
      evaluate_input fuel g n "A" c = (.ok (.Scalar a), c₁) →
      evaluate_input fuel g n "B" c₁ = (.ok (.Scalar b), c₂) →
      get_output g n "out" = .ok oid →
      evaluate_node (fuel + 1) g n c =
        (.ok (.Scalar (a + b)), (oid, .Scalar (a + b)) :: c₂)) ∧
    (∀ g n nd (fuel : Nat) (c c₁ c₂ : OutputsCache) (a b : Int) oid,
      g.nodes.lookup n = some nd → nd.user_data.template = .SubtractScalar →
      evaluate_input fuel g n "A" c = (.ok (.Scalar a), c₁) →
      evaluate_input fuel g n "B" c₁ = (.ok (.Scalar b), c₂) →
      get_output g n "out" = .ok oid →
      evaluate_node (fuel + 1) g n c =
        (.ok (.Scalar (a - b)), (oid, .Scalar (a - b)) :: c₂)) ∧
    (∀ g n nd (fuel : Nat) (c c₁ c₂ : OutputsCache) (s : Int) (w : Vec2R) oid,
      g.nodes.lookup n = some nd → nd.user_data.template = .VectorTimesScalar →
      evaluate_input fuel g n "scalar" c = (.ok (.Scalar s), c₁) →
      evaluate_input fuel g n "vector" c₁ = (.ok (.Vec2 w), c₂) →
      get_output g n "out" = .ok oid →
      evaluate_node (fuel + 1) g n c =
        (.ok (.Vec2 (vec2_scale w s)), (oid, .Vec2 (vec2_scale w s)) :: c₂)) ∧
    (∀ g n nd (fuel : Nat) (c c₁ c₂ : OutputsCache) (va vb : Vec2R) oid,
      g.nodes.lookup n = some nd → nd.user_data.template = .AddVector →
      evaluate_input fuel g n "v1" c = (.ok (.Vec2 va), c₁) →
      evaluate_input fuel g n "v2" c₁ = (.ok (.Vec2 vb), c₂) →
      get_output g n "out" = .ok oid →
      evaluate_node (fuel + 1) g n c =
        (.ok (.Vec2 (vec2_add va vb)), (oid, .Vec2 (vec2_add va vb)) :: c₂)) ∧
    (∀ g n nd (fuel : Nat) (c c₁ c₂ : OutputsCache) (va vb : Vec2R) oid,
      g.nodes.lookup n = some nd → nd.user_data.template = .SubtractVector →
      evaluate_input fuel g n "v1" c = (.ok (.Vec2 va), c₁) →
      evaluate_input fuel g n "v2" c₁ = (.ok (.Vec2 vb), c₂) →
      get_output g n "out" = .ok oid →
      evaluate_node (fuel + 1) g n c =
        (.ok (.Vec2 (vec2_sub va vb)), (oid, .Vec2 (vec2_sub va vb)) :: c₂)) ∧
    (∀ g n nd (fuel : Nat) (c c₁ c₂ : OutputsCache) (x y : Int) oid,
      g.nodes.lookup n = some nd → nd.user_data.template = .MakeVector →
      evaluate_input fuel g n "x" c = (.ok (.Scalar x), c₁) →
      evaluate_input fuel g n "y" c₁ = (.ok (.Scalar y), c₂) →
      get_output g n "out" = .ok oid →
      evaluate_node (fuel + 1) g n c =
        (.ok (.Vec2 (vec2_mk x y)), (oid, .Vec2 (vec2_mk x y)) :: c₂)) ∧
    (∀ g n nd (fuel : Nat) (c c₁ : OutputsCache) (x : Int) oid,
      g.nodes.lookup n = some nd → nd.user_data.template = .MakeScalar →
      evaluate_input fuel g n "value" c = (.ok (.Scalar x), c₁) →
      get_output g n "out" = .ok oid →
      evaluate_node (fuel + 1) g n c = (.ok (.Scalar x), (oid, .Scalar x) :: c₁)) ∧
    (∀ g n nd (fuel : Nat) (c c₁ : OutputsCache) (q : DepthaiNode) oid,
      g.nodes.lookup n = some nd → nd.user_data.template = .CreateColorCamera →
      evaluate_input fuel g n "inputConfig" c = (.ok (.Queue q), c₁) →
      get_output g n "video" = .ok oid →
      evaluate_node (fuel + 1) g n c = (.ok (.Queue q), (oid, .Queue q) :: c₁)) ∧
    (∀ g n nd (fuel : Nat) (c c₁ : OutputsCache) (q : DepthaiNode) oid,
      g.nodes.lookup n = some nd → nd.user_data.template = .CreateXLinkOut →
      evaluate_input fuel g n "in" c = (.ok (.Queue q), c₁) →
      get_output g n "output" = .ok oid →
      evaluate_node (fuel + 1) g n c = (.ok (.Queue q), (oid, .Queue q) :: c₁)) ∧
    (∀ g n nd (fuel : Nat) (c c₁ : OutputsCache) (x : Int) oid,
      g.nodes.lookup n = some nd → handled nd.user_data.template = false →
      evaluate_input fuel g n "value" c = (.ok (.Scalar x), c₁) →
      get_output g n "out" = .ok oid →
      evaluate_node (fuel + 1) g n c = (.ok (.Scalar x), (oid, .Scalar x) :: c₁)) := by
  refine ⟨?_, ?_, ?_, ?_, ?_, ?_, ?_, ?_, ?_, ?_⟩
  · intro g n nd fuel c c₁ c₂ a b oid hnd ht h1 h2 ho
    rw [evaluate_node_succ]
    simp only [hnd]
    rw [ht]
    exact arm2_compute h1 rfl h2 rfl ho
  · intro g n nd fuel c c₁ c₂ a b oid hnd ht h1 h2 ho
    rw [evaluate_node_succ]
    simp only [hnd]
    rw [ht]
    exact arm2_compute h1 rfl h2 rfl ho
  · intro g n nd fuel c c₁ c₂ s w oid hnd ht h1 h2 ho
    rw [evaluate_node_succ]
    simp only [hnd]
    rw [ht]
    exact arm2_compute h1 rfl h2 rfl ho
  · intro g n nd fuel c c₁ c₂ va vb oid hnd ht h1 h2 ho
    rw [evaluate_node_succ]
    simp only [hnd]
    rw [ht]
    exact arm2_compute h1 rfl h2 rfl ho
  · intro g n nd fuel c c₁ c₂ va vb oid hnd ht h1 h2 ho
    rw [evaluate_node_succ]
    simp only [hnd]
    rw [ht]
    exact arm2_compute h1 rfl h2 rfl ho
  · intro g n nd fuel c c₁ c₂ x y oid hnd ht h1 h2 ho
    rw [evaluate_node_succ]
    simp only [hnd]
    rw [ht]
    exact arm2_compute h1 rfl h2 rfl ho
  · intro g n nd fuel c c₁ x oid hnd ht h1 ho
    rw [evaluate_node_succ]
    simp only [hnd]
    rw [ht]
    exact arm1_compute h1 rfl ho
  · intro g n nd fuel c c₁ q oid hnd ht h1 ho
    rw [evaluate_node_succ]
    simp only [hnd]
    rw [ht]
    exact arm1_compute h1 rfl ho
  · intro g n nd fuel c c₁ q oid hnd ht h1 ho
    rw [evaluate_node_succ]
    simp only [hnd]
    rw [ht]
    exact arm1_compute h1 rfl ho
  · intro g n nd fuel c c₁ x oid hnd hun h1 ho
    rw [evaluate_node_succ]
    simp only [hnd]
    generalize htt : nd.user_data.template = tt at hun ⊢
    cases tt <;> first | exact arm1_compute h1 rfl ho | simp [handled] at hun

/-- Witness for C6 on four concrete graphs: the AddScalar chain computing
2 + 5, a VectorTimesScalar node scaling (1, 2) by 3, the ColorCamera queue
passthrough, and the catch-all scalar passthrough on a CreateIMU node. -/
theorem C6_arm_semantics_witness :
    evaluate_node 4 gW 1 [] =
      (.ok (.Scalar (2 + 5)), [(4, .Scalar (2 + 5)), (1, .Scalar 2)]) ∧
    evaluate_node 2 g_vts 0 [] =
      (.ok (.Vec2 (vec2_scale (1, 2) 3)), [(2, .Vec2 (vec2_scale (1, 2) 3))]) ∧
    evaluate_node 2 g_cam 0 [] =
      (.ok (.Queue .ColorCamera), [(4, .Queue .ColorCamera)]) ∧
    evaluate_node 2 g_misc 0 [] = (.ok (.Scalar 9), [(1, .Scalar 9)]) := by
  refine ⟨?_, ?_, ?_, ?_⟩
  · exact C6_arm_semantics.1 gW 1 ⟨⟨.AddScalar⟩, [("A", 2), ("B", 3)], [("out", 4)]⟩
      3 [] [(1, .Scalar 2)] [(1, .Scalar 2)] 2 5 4
      (by decide) (by decide) (by decide) (by decide) (by decide)
  · exact C6_arm_semantics.2.2.1 g_vts 0
      ⟨⟨.VectorTimesScalar⟩, [("scalar", 0), ("vector", 1)], [("out", 2)]⟩
      1 [] [] [] 3 (1, 2) 2 (by decide) (by decide) (by decide) (by decide) (by decide)
  · exact C6_arm_semantics.2.2.2.2.2.2.2.1 g_cam 0
      ⟨⟨.CreateColorCamera⟩,
        [("inputConfig", 0), ("inputControl", 1)],
        [("raw", 2), ("isp", 3), ("video", 4), ("still", 5), ("preview", 6)]⟩
      1 [] [] .ColorCamera 4 (by decide) (by decide) (by decide) (by decide)
  · exact C6_arm_semantics.2.2.2.2.2.2.2.2.2 g_misc 0
      ⟨⟨.CreateIMU⟩, [("value", 0)], [("out", 1)]⟩
      1 [] [] 9 1 (by decide) (by decide) (by decide) (by decide)

/-- Claim C7: a node's template fully determines its ports.  Running
build_node for a template on any fresh graph holding the node with empty
port lists yields exactly the template's input and output signature (port
names with their data types, in creation order); in particular two nodes
built from the same template anywhere always expose identical port lists. -/
theorem C7_template_determines_ports (t : MyNodeTemplate) (g1 g2 : MyGraph)
    (n1 n2 : NodeId) (nd1 nd2 : GraphNode)
    (hf1 : fresh_chk g1 = true) (hn1 : g1.nodes.lookup n1 = some nd1)
    (he1i : nd1.inputs = []) (he1o : nd1.outputs = [])
    (hf2 : fresh_chk g2 = true) (hn2 : g2.nodes.lookup n2 = some nd2)
    (he2i : nd2.inputs = []) (he2o : nd2.outputs = []) :
    port_types (build_node t g1 n1) n1 = some (input_sig t, output_sig t) ∧
    port_types (build_node t g1 n1) n1 = port_types (build_node t g2 n2) n2 := by
  have key : ∀ (g : MyGraph) (n : NodeId) (nd : GraphNode), fresh_chk g = true →
      g.nodes.lookup n = some nd → nd.inputs = [] → nd.outputs = [] →
      port_types (build_node t g n) n = some (input_sig t, output_sig t) := by
    intro g n nd hf hnd hei heo
    obtain ⟨nd', h1, _, h3, h4⟩ := apply_adds_spec (build_node_ops t) g n nd hf hnd
    have hbase_i : input_types g nd = [] := by rw [input_types, hei]; rfl
    have hbase_o : output_types g nd = [] := by rw [output_types, heo]; rfl
    rw [hbase_i, List.nil_append] at h3
    rw [hbase_o, List.nil_append] at h4
    simp only [build_node, port_types, h1, Option.map_some']
    rw [h3, h4]
    rfl
  refine ⟨key g1 n1 nd1 hf1 hn1 he1i he1o, ?_⟩
  rw [key g1 n1 nd1 hf1 hn1 he1i he1o, key g2 n2 nd2 hf2 hn2 he2i he2o]

/-- Witness for C7: building AddScalar on a fresh one-node graph exposes
exactly inputs A and B and output out, all of scalar type. -/
theorem C7_template_determines_ports_witness :
    fresh_chk gF = true ∧
    port_types (build_node .AddScalar gF 0) 0 =
      some ([("A", some .Scalar), ("B", some .Scalar)], [("out", some .Scalar)]) :=
  ⟨by decide,
    ((C7_template_determines_ports .AddScalar gF gF 0 0 ⟨⟨.AddScalar⟩, [], []⟩
        ⟨⟨.AddScalar⟩, [], []⟩ (by decide) (by decide) (by decide) (by decide)
        (by decide) (by decide) (by decide) (by decide)).1).trans (by decide)⟩

/-- Claim C8: the PartialEq on MyDataType ignores the Queue payload: any two
Queue types compare equal regardless of the depthai node kinds they carry,
while Scalar, Vec2 and Queue are mutually distinct. -/
theorem C8_partial_eq_ignores_queue_payload :
    (∀ a b : DepthaiNode, MyDataType.rust_eq (.Queue a) (.Queue b) = true) ∧
    MyDataType.rust_eq .Scalar .Vec2 = false ∧
    MyDataType.rust_eq .Vec2 .Scalar = false ∧
    (∀ a : DepthaiNode,
      MyDataType.rust_eq .Scalar (.Queue a) = false ∧
      MyDataType.rust_eq (.Queue a) .Scalar = false ∧
      MyDataType.rust_eq .Vec2 (.Queue a) = false ∧
      MyDataType.rust_eq (.Queue a) .Vec2 = false) :=
  ⟨fun _ _ => rfl, rfl, rfl, fun _ => ⟨rfl, rfl, rfl, rfl⟩⟩

/-- Claim C9: the unwired names of the depthai arms.  (i) A CreateXLinkOut
node whose in input resolved to a queue errs with NoParameterNamed output,
since populate_output looks for an output port named output which build_node
never creates (it creates XLink (to host)); (ii) a node of any template
without an explicit arm errs with NoParameterNamed value when it has no
input named value, which holds for every freshly built depthai node
(CreateMonoCamera shown: its signature has no value input). -/
theorem C9_unwired_arms_always_err :
    (∀ g n nd (fuel : Nat) (c c₁ : OutputsCache) (q : DepthaiNode),
      g.nodes.lookup n = some nd → nd.user_data.template = .CreateXLinkOut →
      nd.outputs.lookup "output" = none →
      evaluate_input fuel g n "in" c = (.ok (.Queue q), c₁) →
      evaluate_node (fuel + 1) g n c = (.err (no_param_msg "output"), c₁)) ∧
    (∀ g n nd (fuel : Nat) (c : OutputsCache),
      g.nodes.lookup n = some nd → handled nd.user_data.template = false →
      nd.inputs.lookup "value" = none →
      evaluate_node (fuel + 2) g n c = (.err (no_param_msg "value"), c)) ∧
    output_sig .CreateXLinkOut = [("XLink (to host)", some (.Queue .XLinkOut))] ∧
    (output_sig .CreateXLinkOut).lookup "output" = none ∧
    (input_sig .CreateMonoCamera).lookup "value" = none := by
  refine ⟨?_, ?_, by decide, by decide, by decide⟩
  · intro g n nd fuel c c₁ q hnd ht hout hin
    have hgo : get_output g n "output" = .err (no_param_msg "output") := by
      simp [get_output, hnd, hout]
    rw [evaluate_node_succ]
    simp only [hnd]
    rw [ht]
    exact arm1_populate_err hin rfl hgo
  · intro g n nd fuel c hnd hun hin
    have hgi : get_input g n "value" = .err (no_param_msg "value") := by
      simp [get_input, hnd, hin]
    have hv : evaluate_input (fuel + 1) g n "value" c = (.err (no_param_msg "value"), c) := by
      rw [evaluate_input_succ]
      simp [input_step, hgi]
    rw [show fuel + 2 = (fuel + 1) + 1 from rfl, evaluate_node_succ]
    simp only [hnd]
    generalize htt : nd.user_data.template = tt at hun ⊢
    cases tt <;> first | exact arm1_input_err hv | simp [handled] at hun

/-- Witness for C9 on freshly built nodes: CreateXLinkOut errs with
NoParameterNamed output, CreateMonoCamera errs with NoParameterNamed
value. -/
theorem C9_unwired_arms_always_err_witness :
    evaluate_node 2 g_xlink 0 [] = (.err (no_param_msg "output"), []) ∧
    evaluate_node 2 g_mono 0 [] = (.err (no_param_msg "value"), []) := by
  constructor
  · exact C9_unwired_arms_always_err.1 g_xlink 0
      ⟨⟨.CreateXLinkOut⟩, [("in", 0)], [("XLink (to host)", 1)]⟩ 1 [] [] .XLinkOut
      (by decide) (by decide) (by decide) (by decide)
  · exact C9_unwired_arms_always_err.2.1 g_mono 0
      ⟨⟨.CreateMonoCamera⟩, [("inputConfig", 0), ("inputControl", 1)], [("out", 2)]⟩ 0 []
      (by decide) (by decide) (by decide)

/-- Claim C10: cache entries are only ever added.  (i) Resolving an
unconnected input returns its inline constant and leaves the cache exactly as
it was; (ii) populate_output, the only cache writer, on success prepends the
designated output's entry and keeps the rest; (iii, iv) consequently every
evaluate_node and evaluate_input run returns a cache extending the one it
started from: no entry is removed or overwritten in place. -/
theorem C10_cache_only_grows :
    (∀ g n (name : String) (fuel : Nat) (c : OutputsCache) iid ip,
      get_input g n name = .ok iid → g.connection iid = none →
      g.input_params.lookup iid = some ip →
      evaluate_input (fuel + 1) g n name c = (.ok ip.value, c)) ∧
    (∀ g (c : OutputsCache) n (name : String) v w c',
      populate_output g c n name v = (.ok w, c') →
      w = v ∧ ∃ oid, get_output g n name = .ok oid ∧ c' = (oid, v) :: c) ∧
    (∀ (fuel : Nat) g n (c : OutputsCache),
      Extends ((evaluate_node fuel g n c).2) c) ∧
    (∀ (fuel : Nat) g n (name : String) (c : OutputsCache),
      Extends ((evaluate_input fuel g n name c).2) c) := by
  refine ⟨?_, ?_, ?_, ?_⟩
  · intro g n name fuel c iid ip hgi hcon hip
    rw [evaluate_input_succ, input_step_ok hgi]
    simp only [hcon, hip]
  · intro g c n name v w c' h
    rw [populate_output] at h
    cases ho : get_output g n name with
    | ok oid =>
      rw [ho] at h
      have h2 : ((EvalResult.ok v : EvalResult MyValueType),
          ((oid, v) :: c : OutputsCache)) = (.ok w, c') := h
      injection h2 with h3 h4
      injection h3 with h5
      exact ⟨h5.symm, oid, rfl, h4.symm⟩
    | err e =>
      rw [ho] at h
      have h2 : ((EvalResult.err e : EvalResult MyValueType), c) = (.ok w, c') := h
      simp at h2
    | panic m =>
      rw [ho] at h
      have h2 : ((EvalResult.panic m : EvalResult MyValueType), c) = (.ok w, c') := h
      simp at h2
    | fuelOut =>
      rw [ho] at h
      have h2 : ((EvalResult.fuelOut : EvalResult MyValueType), c) = (.ok w, c') := h
      simp at h2
  · intro fuel g n c
    exact (eval_extends fuel).1 g n c
  · intro fuel g n name c
    exact (eval_extends fuel).2 g n name c

/-- Witness for C10 on the two-node graph, with a pre-existing foreign cache
entry that survives the whole evaluation. -/
theorem C10_cache_only_grows_witness :
    evaluate_input 1 gW 0 "value" [] = (.ok (.Scalar 2), []) ∧
    ((MyValueType.Scalar 3) = (MyValueType.Scalar 3) ∧ ∃ oid,
      get_output gW 0 "out" = .ok oid ∧
      ([(1, MyValueType.Scalar 3)] : OutputsCache) = (oid, .Scalar 3) :: []) ∧
    Extends ((evaluate_node 4 gW 1 [(99, .Scalar 0)]).2) [(99, .Scalar 0)] ∧
    Extends ((evaluate_input 3 gW 1 "A" [(99, .Scalar 0)]).2) [(99, .Scalar 0)] :=
  ⟨C10_cache_only_grows.1 gW 0 "value" 0 [] 0
      ⟨0, .Scalar, .Scalar 2, .ConnectionOrConstant⟩ (by decide) (by decide) (by decide),
    C10_cache_only_grows.2.1 gW [] 0 "out" (.Scalar 3) (.Scalar 3)
      [(1, .Scalar 3)] (by decide),
    C10_cache_only_grows.2.2.1 4 gW 1 [(99, .Scalar 0)],
    C10_cache_only_grows.2.2.2 3 gW 1 "A" [(99, .Scalar 0)]⟩

end EguiNodeGraphLux
